import Mathlib

/-!
# Hot replacement of a SQLite database file

A shallow embedding of `src/main.go`: the service that owns one `*sql.DB`, the
subscription loop `checkUpdate` that swaps the handle on every broadcast
message, and the deferred takeover that renames the candidate file onto the
canonical name.

Go values are embedded as follows.

* A Go `error` is a `GoErr`; `nil` is `Option.none`.
* A function that may `panic` returns an `Outcome`.
* The `*sql.DB` pointer is an index into a heap of handles kept in `World`.
* Everything the operating system, the SQL driver or the broadcast bus decides
  (whether `Close`, `Begin`, `Exec`, `Commit`, `Prepare`, `os.Remove`,
  `os.Rename` report an error) is an explicit argument, so every theorem
  quantifies over all such behaviours.
* Two tables of the libraries are parameters: `uni`, the part of
  `strconv.IsPrint` above U+00FF, and `floatEq`, the outcome of the engine's
  comparison of an integer with a text whose conversion to floating point
  rounds (more than 15 digits, an exponent above 15, a value of 2^53 or more).
* `time.Sleep` has no effect on the modelled state and is omitted.
-/

namespace SqliteReplace

/-! ## Errors and panics -/

/-- Go error values. `errNoRows` is the sentinel `sql.ErrNoRows`; `wrapped` is
what `fmt.Errorf` builds for a format ending in `%w`; every other error is a
leaf carrying its text. -/
inductive GoErr where
  | errNoRows
  | other (msg : String)
  | wrapped (msg : String) (inner : GoErr)
  deriving DecidableEq, Repr

/-- Go `errors.Is`: compare, then follow the `Unwrap` chain. -/
def errorsIs : GoErr → GoErr → Bool
  | .wrapped msg inner, target =>
      decide (GoErr.wrapped msg inner = target) || errorsIs inner target
  | e, target => decide (e = target)

/-- The value handed to `panic`: an error (`panic(err)`) or a string. -/
inductive PanicValue where
  | err (e : GoErr)
  | str (s : String)
  deriving DecidableEq, Repr

/-- Result of a call that either returns or panics. -/
inductive Outcome (α : Type) where
  | ok (a : α)
  | panic (v : PanicValue)
  deriving DecidableEq, Repr

/-! ## Constants of `main.go` -/

def updateChannel : String := "update-data"

def dbName : String := "data"

def newName : String := "new"

/-- `getFilename`: `fmt.Sprintf("/data/%s.db", name)`. -/
def getFilename (name : String) : String :=
  "/data/" ++ name ++ ".db"

/-! ## Text that crosses into the SQL engine

`getDB` builds the seed statement with `fmt.Sprintf("... VALUES (1, %q)", filename)`.
The verb `%q` is Go quoting (`strconv.Quote`); the engine then reads the
result with its own lexical rules. Both sides are modelled on `List Char`. -/

/-- The double quote character. -/
def dquote : Char := Char.ofNat 34

/-- The backslash character. -/
def bslash : Char := Char.ofNat 92

/-- Entry `n` of the table `lowerhex` of package `strconv`. -/
def lowerhex (n : Nat) : Char :=
  if n % 16 < 10 then Char.ofNat (48 + n % 16) else Char.ofNat (87 + n % 16)

/-- Go `strconv.IsPrint`. Up to U+00FF the function is a pair of range tests,
reproduced here; above it consults the tables `isPrint16` and `isPrint32`,
which are taken as the parameter `uni`. -/
def isPrint (uni : Char → Bool) (r : Char) : Bool :=
  if r.toNat ≤ 0xFF then
    (decide (0x20 ≤ r.toNat) && decide (r.toNat ≤ 0x7E)) ||
      (decide (0xA1 ≤ r.toNat) && decide (r.toNat ≠ 0xAD))
  else uni r

/-- Hexadecimal digits of `n`, most significant first, `width` of them. -/
def hexDigits (n : Nat) : Nat → List Char
  | 0 => []
  | width + 1 => lowerhex (n / 16 ^ width) :: hexDigits n width

/-- Go `strconv.appendEscapedRune` with quote character `"` and neither the
ASCII-only nor the graphic-only flag, as `%q` on a string uses it. -/
def appendEscapedRune (uni : Char → Bool) (r : Char) : List Char :=
  if r = dquote ∨ r = bslash then [bslash, r]
  else if isPrint uni r then [r]
  else if r.toNat = 7 then [bslash, 'a']
  else if r.toNat = 8 then [bslash, 'b']
  else if r.toNat = 12 then [bslash, 'f']
  else if r.toNat = 10 then [bslash, 'n']
  else if r.toNat = 13 then [bslash, 'r']
  else if r.toNat = 9 then [bslash, 't']
  else if r.toNat = 11 then [bslash, 'v']
  else if r.toNat < 0x20 ∨ r.toNat = 0x7F then [bslash, 'x'] ++ hexDigits r.toNat 2
  else if r.toNat < 0x10000 then [bslash, 'u'] ++ hexDigits r.toNat 4
  else [bslash, 'U'] ++ hexDigits r.toNat 8

/-- The body of a Go-quoted string: every rune escaped in turn. -/
def quoteBody (uni : Char → Bool) : List Char → List Char
  | [] => []
  | r :: rs => appendEscapedRune uni r ++ quoteBody uni rs

/-- Go `strconv.Quote`, the expansion of `%q` for a string argument. -/
def goQuote (uni : Char → Bool) (s : String) : String :=
  ⟨dquote :: (quoteBody uni s.data ++ [dquote])⟩

/-- The SQLite tokenizer on a quoted token, started just after the opening
quote: a doubled quote stands for one quote, a single quote ends the token, and
no other character (a backslash included) is special. Returns the text of the
token and what follows it, or `none` when the token is not terminated. -/
def sqliteQuotedToken : List Char → Option (List Char × List Char)
  | [] => none
  | c :: rest =>
      if c = dquote then
        match rest with
        | d :: rest2 =>
            if d = dquote then
              (sqliteQuotedToken rest2).map (fun p => (dquote :: p.1, p.2))
            else some ([], d :: rest2)
        | [] => some ([], [])
      else (sqliteQuotedToken rest).map (fun p => (c :: p.1, p.2))

/-- How the engine reads the second value of the seed statement
`INSERT OR IGNORE INTO a (b, c) VALUES (1, ` ++ lit ++ `)`. A double-quoted
token that names no column is taken as a string literal. The statement is
accepted when the token is exactly `lit`, so that the closing parenthesis
follows it; every other text is reported as a syntax error (the model does not
parse further SQL after an early end of the token). -/
def seedLiteral (lit : String) : Option String :=
  match lit.data ++ [')'] with
  | [] => none
  | c :: rest =>
      if c = dquote then
        match sqliteQuotedToken rest with
        | some (body, tail) => if tail = [')'] then some ⟨body⟩ else none
        | none => none
      else none

/-! ## The SQL engine: one table `a (b, c)` per database file -/

/-- A value stored in a column. -/
inductive SqlValue where
  | null
  | int (i : Int)
  | text (s : String)
  deriving DecidableEq, Repr

/-- A row of table `a`. -/
structure Row where
  b : SqlValue
  c : SqlValue
  deriving DecidableEq, Repr

/-- Table `a`. The flag `uniqueB` records whether the table was declared with a
uniqueness constraint (`UNIQUE` or `PRIMARY KEY`) on column `b`; rows are kept
in insertion order. -/
structure Table where
  uniqueB : Bool
  rows : List Row
  deriving DecidableEq, Repr

/-- The content of a database file: table `a`, when it exists. -/
structure Database where
  a : Option Table
  deriving DecidableEq, Repr

/-- `CREATE TABLE IF NOT EXISTS a (b INT, c TEXT)`: an existing table is left
as it is; otherwise an empty table is created. The column list of the statement
declares no constraint, so the new table has none. -/
def execCreateTable (d : Database) : Database :=
  match d.a with
  | some _ => d
  | none => { a := some { uniqueB := false, rows := [] } }

/-- `INSERT OR IGNORE INTO a (b, c) VALUES (key, value)`. The conflict clause
`OR IGNORE` skips the row only when inserting it would violate a constraint of
the table; with no constraint the row is appended. Fails when the table does
not exist. -/
def execInsertOrIgnore (key : Int) (value : String) (d : Database) : Option Database :=
  match d.a with
  | none => none
  | some t =>
      if t.uniqueB && t.rows.any (fun r => decide (r.b = SqlValue.int key)) then some d
      else some { a := some { t with rows := t.rows ++ [{ b := .int key, c := .text value }] } }

/-! ## Handles and the world -/

/-- The object behind a `*sql.DB`: the file its connection is on and whether
`Close` has been called on it. -/
structure Handle where
  path : String
  closed : Bool
  deriving DecidableEq, Repr

/-- The state outside the service: the database files by path, and the heap of
`sql.DB` objects (a `*sql.DB` is an index into `handles`). Files are looked up
by the path a handle was opened on; the deferred takeover, which renames
files, is modelled separately on a directory (see `FS`). -/
structure World where
  files : String → Option Database
  handles : List Handle

/-- What the driver reports during one call of `getDB`: the error of
`sql.Open`, of the `k`-th call of `db.Begin` (counted from 1), of the two
`tx.Exec` calls and of `tx.Commit`; `none` is a `nil` error. -/
structure OpenEnv where
  openErr : Option GoErr
  beginErr : Nat → Option GoErr
  createErr : Option GoErr
  insertErr : Option GoErr
  commitErr : Option GoErr

/-- The data source name `getDB` hands to `sql.Open`:
`fmt.Sprintf("%s?_journal=wal&_txlock=immediate&_busy_timeout=10000", filename)`. -/
def dataSourceName (filename : String) : String :=
  filename ++ "?_journal=wal&_txlock=immediate&_busy_timeout=10000"

/-- The name the `sqlite3` driver opens for a data source name:
`pos := strings.IndexRune(dsn, '?')`, and when `pos >= 1` and the name does not
start with `file:` the name is cut to `dsn[:pos]`, the text before the first
question mark. -/
def openName (dsn : String) : String :=
  if dsn.data.contains '?' && !(dsn.data.takeWhile (fun c => c != '?')).isEmpty &&
      !("file:".data.isPrefixOf dsn.data) then
    ⟨dsn.data.takeWhile (fun c => c != '?')⟩
  else dsn

/-- The file a `getDB(filename)` works on: what the driver opens for the data
source name built from `filename`. It is `filename` itself unless `filename`
holds a question mark, is empty or starts with `file:`. -/
def dbFile (filename : String) : String :=
  openName (dataSourceName filename)

/-- The retry loop of `getDB`:
`for range 400 { time.Sleep(..); tx, err = db.Begin(); if err == nil { break } }`.
`remaining` iterations are left, `made` calls of `Begin` have been made and
`err` is the current value of the variable `err`. Returns the number of calls
made and the value of `err` after the loop. -/
def beginLoop (beginErr : Nat → Option GoErr) : Nat → Nat → Option GoErr → Nat × Option GoErr
  | 0, made, err => (made, err)
  | remaining + 1, made, _ =>
      match beginErr (made + 1) with
      | none => (made + 1, none)
      | some e => beginLoop beginErr remaining (made + 1) (some e)

/-- The second `tx.Exec` of `getDB`, on the engine side: the statement text is
`fmt.Sprintf("INSERT OR IGNORE INTO a (b, c) VALUES (1, %q)", filename)`. -/
def execSeed (uni : Char → Bool) (filename : String) (d : Database) : Except GoErr Database :=
  match seedLiteral (goQuote uni filename) with
  | none => .error (.other "syntax error")
  | some value =>
      match execInsertOrIgnore 1 value d with
      | none => .error (.other "no such table: a")
      | some d2 => .ok d2

/-- Lines 223 to 236 of `getDB`, after `Begin` has succeeded: the two
statements and the commit, each followed by `panic(err)` on error. The
connection is on the file `dbFile filename`, created empty when it does not
exist; the changes reach the file at commit. Returns the new handle. -/
def setupTx (uni : Char → Bool) (env : OpenEnv) (w : World) (filename : String) :
    Outcome (Nat × World) :=
  match env.createErr with
  | some e => .panic (.err e)
  | none =>
      let d1 := execCreateTable ((w.files (dbFile filename)).getD { a := none })
      match env.insertErr with
      | some e => .panic (.err e)
      | none =>
          match execSeed uni filename d1 with
          | .error e => .panic (.err e)
          | .ok d2 =>
              match env.commitErr with
              | some e => .panic (.err e)
              | none =>
                  .ok (w.handles.length,
                    { files := fun p => if p = dbFile filename then some d2 else w.files p,
                      handles := w.handles ++ [{ path := dbFile filename, closed := false }] })

/-- `getDB`: `sql.Open` on the data source name, the `Begin` retry loop with a
budget of 400 calls, then the setup transaction. Every error is a `panic`. What
the driver makes of the parameters after the question mark (a text it cannot
parse, a setting that makes a statement fail) reaches `getDB` as an error of
one of these calls and is part of `env`. -/
def getDB (uni : Char → Bool) (env : OpenEnv) (w : World) (filename : String) :
    Outcome (Nat × World) :=
  match env.openErr with
  | some e => .panic (.err e)
  | none =>
      match (beginLoop env.beginErr 400 0 none).2 with
      | some e => .panic (.err e)
      | none => setupTx uni env w filename

/-! ## The service -/

/-- The struct `service`: the canonical path and the live `*sql.DB`. -/
structure service where
  filename : String
  db : Nat
  deriving DecidableEq, Repr

/-- `newService`. -/
def newService (uni : Char → Bool) (env : OpenEnv) (w : World) (name : String) :
    Outcome (service × World) :=
  match getDB uni env w (getFilename name) with
  | .panic v => .panic v
  | .ok (db, w2) => .ok ({ filename := getFilename name, db := db }, w2)

/-- What the driver reports during one call of `service.update`. -/
structure UpdateEnv where
  closeErr : Option GoErr
  openEnv : OpenEnv

/-- `(*sql.DB).Close`: the handle is marked closed whatever the result; a second
`Close` returns `nil`, a first one returns what the driver reports. -/
def dbClose (closeErr : Option GoErr) (h : Handle) : Option GoErr × Handle :=
  (if h.closed then none else closeErr, { h with closed := true })

/-- `service.update`. A `db` field that points at no handle is a nil
dereference. Returns the result together with the service and the world after
the call. -/
def service.update (uni : Char → Bool) (env : UpdateEnv) (w : World) (s : service)
    (filename : String) : Outcome (Bool × service × World) :=
  match w.handles[s.db]? with
  | none => .panic (.str "invalid memory address or nil pointer dereference")
  | some h =>
      let r := dbClose env.closeErr h
      let w1 : World := { w with handles := w.handles.set s.db r.2 }
      match r.1 with
      | some _ => .ok (false, s, w1)
      | none =>
          match getDB uni env.openEnv w1 filename with
          | .panic v => .panic v
          | .ok (db, w2) => .ok (true, { s with db := db }, w2)

/-! ## Reading -/

/-- Go `err.Error()`. For a wrapped error, `msg` is the text that precedes the
verb `%w` in the format. -/
def GoErr.Error : GoErr → String
  | .errNoRows => "sql: no rows in result set"
  | .other msg => msg
  | .wrapped msg inner => msg ++ inner.Error

/-- The chain Go `errors.Unwrap` walks from an error: the error, what it wraps,
and so on. An error wraps `target` when `target` is in this chain. -/
def unwrapChain : GoErr → List GoErr
  | .wrapped msg inner => .wrapped msg inner :: unwrapChain inner
  | .errNoRows => [.errNoRows]
  | .other msg => [.other msg]

/-- The engine's `sqlite3Isspace`. -/
def isSqlSpace (c : Char) : Bool :=
  c.toNat = 32 || (decide (9 ≤ c.toNat) && decide (c.toNat ≤ 13))

/-- The engine's `sqlite3Isdigit`. -/
def isSqlDigit (c : Char) : Bool :=
  decide (48 ≤ c.toNat) && decide (c.toNat ≤ 57)

/-- Read a run of digits: the value read so far, the number of digits read so
far, and, in the result, what follows the run. -/
def takeDigits : List Char → Nat → Nat → Nat × Nat × List Char
  | [], acc, n => (acc, n, [])
  | c :: cs, acc, n =>
      if isSqlDigit c then takeDigits cs (acc * 10 + (c.toNat - 48)) (n + 1)
      else (acc, n, c :: cs)

/-- What numeric affinity makes of a text: no number; a number whose value is
the integer `n`; a number with a fractional part, which equals no integer; or
a number whose comparison with an integer depends on the rounding of the
engine's floating-point conversion. -/
inductive KeyClass where
  | notNumeric
  | exactInt (n : Int)
  | nonInteger
  | floating
  deriving DecidableEq, Repr

/-- The optional sign at the start of a number: whether it is a minus, and the
rest. -/
def takeSign : List Char → Bool × List Char
  | [] => (false, [])
  | c :: cs => if c = '-' then (true, cs) else if c = '+' then (false, cs) else (false, c :: cs)

/-- The optional fraction of a number whose integer digits have the value
`acc`: whether a point is there, the value of all digits read so far, the
number of digits after the point, and the rest. -/
def takeFraction (acc : Nat) : List Char → Bool × Nat × Nat × List Char
  | [] => (false, acc, 0, [])
  | c :: cs =>
      if c = '.' then (true, takeDigits cs acc 0)
      else (false, acc, 0, c :: cs)

/-- The optional exponent of a number: whether an `e` is there, whether its
sign is a minus, its value, the number of its digits, and the rest. An
exponent is well formed when it has at least one digit. -/
def takeExponent : List Char → Bool × Bool × Nat × Nat × List Char
  | [] => (false, false, 0, 0, [])
  | c :: cs =>
      if c = 'e' ∨ c = 'E' then (true, (takeSign cs).1, takeDigits (takeSign cs).2 0 0)
      else (false, false, 0, 0, c :: cs)

/-- The class of a number with sign `neg`, digits of value `m`, `digits` of
them in all, `f` of them after the point, and exponent `e` (negative when
`eneg`), of which `real` tells whether it has a point or an exponent. The
engine adds the exponent and the place of the point, then multiplies or
divides the digits by ten in integer arithmetic as long as that is exact, and
converts what is left to floating point. A number without point and exponent
below 2^53 is its integer. With at most 15 digits and an exponent of at most
15, a number whose value is an integer below 2^53 is converted exactly, and one
whose value is not an integer is converted to a value that is not an integer.
Everything else depends on rounding. -/
def classifyNumber (neg : Bool) (m digits f : Nat) (real eneg : Bool) (e : Nat) : KeyClass :=
  let signed (v : Nat) : Int := if neg then -(v : Int) else (v : Int)
  if !real then
    if m < 2 ^ 53 then .exactInt (signed m) else .floating
  else if digits ≤ 15 ∧ e ≤ 15 then
    if !eneg && decide (f ≤ e) then
      if m * 10 ^ (e - f) < 2 ^ 53 then .exactInt (signed (m * 10 ^ (e - f))) else .floating
    else
      let k := if eneg then f + e else f - e
      if m % 10 ^ k = 0 then .exactInt (signed (m / 10 ^ k)) else .nonInteger
  else .floating

/-- The engine's `sqlite3AtoF` as a recogniser, with what `applyNumericAffinity`
then does. A text is numeric when it is, between optional white space, an
optional sign, digits with an optional point and more digits (at least one digit
in all) and an optional well-formed exponent. -/
def classifyKey (s : String) : KeyClass :=
  let z1 := takeSign (s.data.dropWhile isSqlSpace)
  let ds := takeDigits z1.2 0 0
  let fr := takeFraction ds.1 ds.2.2
  let ex := takeExponent fr.2.2.2
  if (s.data.dropWhile isSqlSpace).isEmpty then .notNumeric
  else if (ex.2.2.2.2.dropWhile isSqlSpace).isEmpty && decide (0 < ds.2.1 + fr.2.2.1) &&
      (!ex.1 || decide (0 < ex.2.2.2.1)) then
    classifyNumber z1.1 fr.2.1 (ds.2.1 + fr.2.2.1) fr.2.2.1 (fr.1 || ex.1) ex.2.1 ex.2.2.1
  else .notNumeric

/-- Whether a row satisfies `b = ?` for the bound text `key`. The Go string is
bound as text; column `b` is declared `INT`, so numeric affinity is applied to
the parameter before the comparison. A `NULL` equals nothing and a number never
equals a text. Where the outcome depends on the rounding of the floating-point
conversion it is taken from the parameter `floatEq` (whether the engine finds
the integer equal to the value the text converts to). -/
def rowMatches (floatEq : Int → String → Bool) (key : String) (r : Row) : Bool :=
  match r.b, classifyKey key with
  | .int i, .exactInt n => decide (i = n)
  | .int i, .floating => floatEq i key
  | .text s, .notNumeric => decide (s = key)
  | _, _ => false

/-- Storing the column read into the Go `string` of `Scan(&value)`. -/
def scanString : SqlValue → Except GoErr String
  | .text s => .ok s
  | .int i => .ok (toString i)
  | .null => .error (.other "sql: Scan error on column index 0, name \"c\": converting NULL to string is unsupported")

/-- `stmt.QueryRow(id).Scan(&value)`: the first row that matches, in table
order; `sql.ErrNoRows` when there is none. -/
def queryRowScan (floatEq : Int → String → Bool) (t : Table) (key : String) :
    Except GoErr String :=
  match t.rows.find? (rowMatches floatEq key) with
  | none => .error .errNoRows
  | some r => scanString r.c

/-- One call `s.db.Prepare("select c from a where b = ?")` on handle `h`:
refused on a closed handle, then whatever the driver reports, then the engine
resolving table `a` in the file. The prepared statement is represented by the
table it reads. -/
def dbPrepare (driverErr : Option GoErr) (w : World) (h : Handle) : Except GoErr Table :=
  if h.closed then .error (.other "sql: database is closed")
  else
    match driverErr with
    | some e => .error e
    | none =>
        match (w.files h.path).bind (fun d => d.a) with
        | none => .error (.other "no such table: a")
        | some t => .ok t

/-- The retry loop of `service.read`:
`for range 100 { stmt, err = s.db.Prepare(..); if err == nil { break }; time.Sleep(..) }`.
The state is the pair of the variables `err` and `stmt`; `prep k` is the
result of the `k`-th call, counted from 1. -/
def prepareLoop (prep : Nat → Except GoErr Table) :
    Nat → Nat → Option GoErr × Option Table → Option GoErr × Option Table
  | 0, _, cur => cur
  | remaining + 1, made, _ =>
      match prep (made + 1) with
      | .ok t => (none, some t)
      | .error e => prepareLoop prep remaining (made + 1) (some e, none)

/-- What the driver reports to the `k`-th `Prepare` of one `service.read`. -/
structure ReadEnv where
  prepareErr : Nat → Option GoErr

/-- `service.read`. Returns the pair `(value, err)` of the Go function. -/
def service.read (floatEq : Int → String → Bool) (env : ReadEnv) (w : World) (s : service)
    (id : String) : Outcome (String × Option GoErr) :=
  match w.handles[s.db]? with
  | none => .panic (.str "invalid memory address or nil pointer dereference")
  | some h =>
      match prepareLoop (fun k => dbPrepare (env.prepareErr k) w h) 100 0 (none, none) with
      | (some e, _) => .ok ("", some (.wrapped "prepare err: " e))
      | (none, none) => .panic (.str "invalid memory address or nil pointer dereference")
      | (none, some t) =>
          match queryRowScan floatEq t id with
          | .error e => .ok ("", some (.wrapped "scan err: " e))
          | .ok value => .ok (value, none)

/-- What a fiber handler sends. -/
inductive Response where
  | sendStatus (code : Nat)
  | sendString (body : String)
  deriving DecidableEq, Repr

def StatusOK : Nat := 200

def StatusNotFound : Nat := 404

def StatusInternalServerError : Nat := 500

/-- The part of the handler `read` after `svc.read(key)` has returned. -/
def readRespond (uni : Char → Bool) (id : String) (value : String) (err : Option GoErr) :
    Response :=
  match err with
  | some e =>
      if errorsIs e .errNoRows then .sendStatus StatusNotFound
      else .sendStatus StatusInternalServerError
  | none => .sendString ("[" ++ id ++ "] " ++ goQuote uni value)

/-- The HTTP handler `read(svc)` on the route parameter `key`; `id` is the
process identity. -/
def read (uni : Char → Bool) (floatEq : Int → String → Bool) (id : String) (env : ReadEnv)
    (w : World) (svc : service) (key : String) : Outcome Response :=
  match service.read floatEq env w svc key with
  | .panic v => .panic v
  | .ok (value, err) => .ok (readRespond uni id value err)

/-! ## The subscription loop -/

/-- The struct `msgUpdate`. -/
structure msgUpdate where
  Id : String
  Name : String
  deriving DecidableEq, Repr

/-- What one pass of the loop of `checkUpdate` gets from the bus: an error of
`sub.ReceiveMessage`, or a message with its payload text and the result of
`json.Unmarshal` on it. -/
inductive Received where
  | recvErr (e : GoErr)
  | message (payload : String) (decoded : Except GoErr msgUpdate)

/-- The goroutine started at line 172. Its closure holds the variable
`filename` of the pass that started it and the pointer `svc`. -/
structure Takeover where
  filename : String
  deriving DecidableEq, Repr

/-- One pass of the loop of `checkUpdate`, from `sub.ReceiveMessage` to the
`go` statement; `id` is the process identity. Returns the service, the world
and the goroutines started by this pass. -/
def checkUpdateIter (uni : Char → Bool) (id : String) (env : UpdateEnv) (w : World)
    (svc : service) (r : Received) : Outcome (service × World × List Takeover) :=
  match r with
  | .recvErr _ => .ok (svc, w, [])
  | .message payload (.error e) =>
      .panic (.str ("message [" ++ goQuote uni payload ++ "] unmarshal err: " ++ e.Error))
  | .message _ (.ok payload) =>
      let filename := getFilename payload.Name
      match service.update uni env w svc filename with
      | .panic v => .panic v
      | .ok (false, _, _) => .panic (.str "failed to update db connection")
      | .ok (true, svc2, w2) =>
          if payload.Id ≠ id then .ok (svc2, w2, [])
          else .ok (svc2, w2, [{ filename := filename }])

/-- The loop of `checkUpdate` over the deliveries made before the context is
cancelled, each with what the driver reports during it. Returns the final
service and world and all goroutines started, in order. -/
def checkUpdate (uni : Char → Bool) (id : String) :
    List (Received × UpdateEnv) → World → service → Outcome (service × World × List Takeover)
  | [], w, svc => .ok (svc, w, [])
  | (r, env) :: rest, w, svc =>
      match checkUpdateIter uni id env w svc r with
      | .panic v => .panic v
      | .ok (svc2, w2, started) =>
          match checkUpdate uni id rest w2 svc2 with
          | .panic v => .panic v
          | .ok (svc3, w3, later) => .ok (svc3, w3, started ++ later)

/-! ## The deferred takeover -/

/-- A directory: which file each path names. Files are values of an arbitrary
type, so that a theorem can say which file a path names after a rename. -/
abbrev FS (α : Type) := String → Option α

/-- A call made to the file system. -/
inductive FsCall where
  | remove (name : String)
  | rename (oldpath newpath : String)
  deriving DecidableEq, Repr

/-- What the operating system reports to the four calls of one takeover,
besides a missing file: `none` lets the call through. -/
structure TakeoverEnv where
  removeErr : Option GoErr
  renameDbErr : Option GoErr
  renameShmErr : Option GoErr
  renameWalErr : Option GoErr

/-- `os.Remove(name)`: fails when the system refuses the call or nothing is at
`name`, and then changes nothing; otherwise the entry `name` is gone. -/
def osRemove {α : Type} (fault : Option GoErr) (name : String) (fs : FS α) :
    Option GoErr × FS α :=
  match fault with
  | some e => (some e, fs)
  | none =>
      match fs name with
      | none => (some (.other ("remove " ++ name ++ ": no such file or directory")), fs)
      | some _ => (none, fun p => if p = name then none else fs p)

/-- `os.Rename(oldpath, newpath)`: fails when the system refuses the call or
nothing is at `oldpath`, and then changes nothing; otherwise `newpath` names the
file that was at `oldpath` (replacing what was there) and `oldpath` is gone. -/
def osRename {α : Type} (fault : Option GoErr) (oldpath newpath : String) (fs : FS α) :
    Option GoErr × FS α :=
  match fault with
  | some e => (some e, fs)
  | none =>
      match fs oldpath with
      | none =>
          (some (.other ("rename " ++ oldpath ++ " " ++ newpath ++ ": no such file or directory")),
            fs)
      | some x => (none, fun p => if p = newpath then some x else if p = oldpath then none else fs p)

/-- What a run of the takeover goroutine leaves: the directory at the end, the
directory after each call made (in order), the calls made, and whether the
last line `println("db updated")` was reached. -/
structure TakeoverRun (α : Type) where
  fs : FS α
  trace : List (FS α)
  calls : List FsCall
  updated : Bool

/-- The body of the goroutine of lines 172 to 194, after the sleep: `canonical`
is `svc.filename` and `filename` the captured candidate path. Each failing call
ends the goroutine. -/
def takeover {α : Type} (env : TakeoverEnv) (canonical filename : String) (fs0 : FS α) :
    TakeoverRun α :=
  let r1 := osRemove env.removeErr canonical fs0
  match r1.1 with
  | some _ => ⟨r1.2, [r1.2], [.remove canonical], false⟩
  | none =>
      let r2 := osRename env.renameDbErr filename canonical r1.2
      match r2.1 with
      | some _ => ⟨r2.2, [r1.2, r2.2], [.remove canonical, .rename filename canonical], false⟩
      | none =>
          let r3 := osRename env.renameShmErr (filename ++ "-shm") (canonical ++ "-shm") r2.2
          match r3.1 with
          | some _ =>
              ⟨r3.2, [r1.2, r2.2, r3.2],
                [.remove canonical, .rename filename canonical,
                  .rename (filename ++ "-shm") (canonical ++ "-shm")], false⟩
          | none =>
              let r4 := osRename env.renameWalErr (filename ++ "-wal") (canonical ++ "-wal") r3.2
              ⟨r4.2, [r1.2, r2.2, r3.2, r4.2],
                [.remove canonical, .rename filename canonical,
                  .rename (filename ++ "-shm") (canonical ++ "-shm"),
                  .rename (filename ++ "-wal") (canonical ++ "-wal")], r4.1.isNone⟩

/-- The file system calls made by the goroutines in `started`, run one after
the other for the service `svc`; `envs k` is what the system reports to the
`k`-th of them. -/
def takeoverCalls {α : Type} (envs : Nat → TakeoverEnv) (svc : service) :
    List Takeover → Nat → FS α → List FsCall
  | [], _, _ => []
  | t :: rest, k, fs =>
      let run := takeover (envs k) svc.filename t.filename fs
      run.calls ++ takeoverCalls envs svc rest (k + 1) run.fs

/-! ## Readers running beside the subscription loop

`service.read` runs in the goroutines of the HTTP server while `service.update`
runs in the goroutine of `checkUpdate`. The struct `service` has the two fields
`filename` and `db` and no lock, so the statements of the two methods
interleave. The interleavings are modelled as sequentially consistent schedules
of the statements that use a `*sql.DB`: in `read`, each `s.db.Prepare(..)`, the
`stmt.QueryRow(id).Scan(&value)` and the deferred `stmt.Close()`, the last two
on the handle the statement was prepared on; in `update`, `s.db.Close()` and
`s.db = getDB(filename)`. -/

/-- One atomic step of the process. `readPrepare rid err`: the reader `rid`
evaluates `s.db.Prepare(..)`, and `err` is what the call reports when the
handle is open. `readQuery rid`: the reader evaluates
`stmt.QueryRow(id).Scan(&value)`. `readStmtClose rid`: the reader evaluates the
deferred `stmt.Close()`. `updateClose`: the subscription loop evaluates
`s.db.Close()` at the start of `update(filename)`. `updateStore`: it evaluates
`s.db = getDB(filename)`. -/
inductive Step where
  | readPrepare (rid : Nat) (err : Option GoErr)
  | readQuery (rid : Nat)
  | readStmtClose (rid : Nat)
  | updateClose (filename : String) (closeErr : Option GoErr)
  | updateStore (env : OpenEnv)

/-- The statement a reader holds: the handle it was prepared on and whether the
reader has run its query. -/
structure Stmt where
  db : Nat
  queried : Bool
  deriving DecidableEq, Repr

/-- The process while readers and the subscription loop run: the service, the
world, the argument of the call of `update` that has closed the handle and not
yet stored the new one, the statement each reader holds, and for every use of a
handle by a reader so far (a `Prepare`, a query, a `stmt.Close`) the handle
used and whether it was closed at that moment. -/
structure Sys where
  svc : service
  w : World
  pending : Option String
  stmts : List (Nat × Stmt)
  uses : List (Nat × Bool)

/-- Effect of one step; `none` when the process has ended (a `panic`, which
also covers `update` returning `false` to `checkUpdate`) or the step cannot
occur in this state (a reader that holds a statement does not prepare again;
it queries once, and closes the statement after the query). A `Prepare` yields
a statement when the handle is open and the call reports no error. -/
def sysStep (uni : Char → Bool) (sys : Sys) : Step → Option Sys
  | .readPrepare rid err =>
      match sys.stmts.lookup rid, sys.w.handles[sys.svc.db]? with
      | none, some h =>
          some { sys with
            stmts :=
              if !h.closed && err.isNone then
                (rid, { db := sys.svc.db, queried := false }) :: sys.stmts
              else sys.stmts,
            uses := sys.uses ++ [(sys.svc.db, h.closed)] }
      | _, _ => none
  | .readQuery rid =>
      match sys.stmts.lookup rid with
      | none => none
      | some st =>
          match st.queried, sys.w.handles[st.db]? with
          | false, some h =>
              some { sys with
                stmts := (rid, { st with queried := true }) ::
                  sys.stmts.filter (fun e => e.1 != rid),
                uses := sys.uses ++ [(st.db, h.closed)] }
          | _, _ => none
  | .readStmtClose rid =>
      match sys.stmts.lookup rid with
      | none => none
      | some st =>
          match st.queried, sys.w.handles[st.db]? with
          | true, some h =>
              some { sys with
                stmts := sys.stmts.filter (fun e => e.1 != rid),
                uses := sys.uses ++ [(st.db, h.closed)] }
          | _, _ => none
  | .updateClose filename closeErr =>
      match sys.pending, sys.w.handles[sys.svc.db]? with
      | none, some h =>
          let r := dbClose closeErr h
          match r.1 with
          | some _ => none
          | none =>
              some { sys with
                w := { sys.w with handles := sys.w.handles.set sys.svc.db r.2 },
                pending := some filename }
      | _, _ => none
  | .updateStore env =>
      match sys.pending with
      | none => none
      | some filename =>
          match getDB uni env sys.w filename with
          | .panic _ => none
          | .ok (db, w2) =>
              some { sys with svc := { sys.svc with db := db }, w := w2, pending := none }

/-- Run a schedule of steps. -/
def sysRun (uni : Char → Bool) : Sys → List Step → Option Sys
  | sys, [] => some sys
  | sys, st :: rest =>
      match sysStep uni sys st with
      | none => none
      | some sys2 => sysRun uni sys2 rest

/-- A schedule made of whole blocks: a `Prepare` that reports an error; a
`Prepare` that reports none directly followed by the query and the
`stmt.Close` of the same reader; the `Close` of an `update` directly followed
by its store of the new handle. No step of another goroutine falls between a
reader getting a statement and being done with it, nor inside an `update`.
A run of whole reads and whole updates one after the other, which is what a
lock around `read` and `update` allows, has a schedule of this form. -/
def serialized : List Step → Bool
  | [] => true
  | .readPrepare _ (some _) :: rest => serialized rest
  | .readPrepare rid none :: .readQuery rid2 :: .readStmtClose rid3 :: rest =>
      decide (rid2 = rid) && decide (rid3 = rid) && serialized rest
  | .updateClose _ _ :: .updateStore _ :: rest => serialized rest
  | _ => false

/-- Whether some reader used a handle that was already closed. -/
def useAfterClose (sys : Sys) : Bool :=
  sys.uses.any (fun u => u.2)

/-! ## Concrete environments used in the examples -/

/-- A table for `strconv.IsPrint` that takes every rune above U+00FF as
printable. -/
def uniAll : Char → Bool := fun _ => true

/-- The driver reports no error. -/
def openFine : OpenEnv :=
  { openErr := none, beginErr := fun _ => none, createErr := none, insertErr := none,
    commitErr := none }

/-- No database file and no handle. -/
def emptyWorld : World :=
  { files := fun _ => none, handles := [] }

/-- A driver whose file is locked during the first twelve calls of `Begin`
(300ms at 25ms a call) and free afterwards. -/
def lockedBriefly : OpenEnv :=
  { openFine with
    beginErr := fun k => if k ≤ 12 then some (.other "database is locked") else none }

/-- A driver whose file stays locked. -/
def lockedForever : OpenEnv :=
  { openFine with beginErr := fun _ => some (.other "database is locked") }

/-- The world after a first open of `/data/test.db`: the seeded file and one
open handle. -/
def testWorld : World :=
  { files := fun p =>
      if p = "/data/test.db" then
        some { a := some { uniqueB := false,
                           rows := [{ b := .int 1, c := .text "/data/test.db" }] } }
      else none,
    handles := [{ path := "/data/test.db", closed := false }] }

/-- The service on `testWorld`. -/
def testService : service :=
  { filename := "/data/test.db", db := 0 }

/-- The world after `testService` has swapped to `/data/new-1.db`. -/
def swappedWorld : World :=
  { files := fun p =>
      if p = "/data/new-1.db" then
        some { a := some { uniqueB := false,
                           rows := [{ b := .int 1, c := .text "/data/new-1.db" }] } }
      else testWorld.files p,
    handles := [{ path := "/data/test.db", closed := true },
                { path := "/data/new-1.db", closed := false }] }

/-- The service after the swap. -/
def swappedService : service :=
  { filename := "/data/test.db", db := 1 }

/-- A driver that reports no error to `update`. -/
def updateFine : UpdateEnv :=
  { closeErr := none, openEnv := openFine }

/-- A driver that reports no error to `read`. -/
def readFine : ReadEnv :=
  { prepareErr := fun _ => none }

/-- The file `/data/test.db` after a second open. -/
def reopenedWorld : World :=
  { files := fun p =>
      if p = "/data/test.db" then
        some { a := some { uniqueB := false,
                           rows := [{ b := .int 1, c := .text "/data/test.db" },
                                    { b := .int 1, c := .text "/data/test.db" }] } }
      else testWorld.files p,
    handles := [{ path := "/data/test.db", closed := false },
                { path := "/data/test.db", closed := false }] }

/-- A candidate path with a backslash in its name, as `getFilename` builds it
for the candidate name `a\b`. -/
def backslashPath : String := getFilename ("a" ++ String.singleton bslash ++ "b")

/-- The text the engine stores for `backslashPath`: the backslash twice. -/
def backslashStored : String :=
  "/data/a" ++ String.singleton bslash ++ String.singleton bslash ++ "b.db"

/-- The world after a first open of `backslashPath`. -/
def backslashWorld : World :=
  { files := fun p =>
      if p = backslashPath then
        some { a := some { uniqueB := false,
                           rows := [{ b := .int 1, c := .text backslashStored }] } }
      else none,
    handles := [{ path := backslashPath, closed := false }] }

/-- The operating system lets every call of a takeover through. -/
def takeoverFine : TakeoverEnv :=
  { removeErr := none, renameDbErr := none, renameShmErr := none, renameWalErr := none }

/-- The operating system refuses the rename of the candidate file. -/
def renameRefused : TakeoverEnv :=
  { takeoverFine with renameDbErr := some (.other "permission denied") }

/-- A directory with the canonical file `/data/test.db` (file 0) and the
candidate `/data/new-1.db` with its two side files (files 1, 2 and 3). -/
def swapDir : FS Nat := fun p =>
  if p = "/data/test.db" then some 0
  else if p = "/data/new-1.db" then some 1
  else if p = "/data/new-1.db-shm" then some 2
  else if p = "/data/new-1.db-wal" then some 3
  else none

/-- The process right after start on `testWorld`: no update under way and no
`Prepare` made yet. -/
def testSys : Sys :=
  { svc := testService, w := testWorld, pending := none, stmts := [], uses := [] }

/-- A schedule in which a `Prepare` of reader 0 falls between the two
statements of `update("/data/new-1.db")`. -/
def racingSchedule : List Step :=
  [.updateClose "/data/new-1.db" none, .readPrepare 0 none, .updateStore openFine]

/-- A schedule in which a whole `update("/data/new-1.db")` falls between the
`Prepare` and the query of reader 0. -/
def racingQuerySchedule : List Step :=
  [.readPrepare 0 none, .updateClose "/data/new-1.db" none, .updateStore openFine,
    .readQuery 0]

/-- The world between the two statements of that `update`. -/
def closedWorld : World :=
  { testWorld with handles := [{ path := "/data/test.db", closed := true }] }

/-- A schedule a lock would allow: a whole read, a whole `update`, a whole
read. -/
def lockedSchedule : List Step :=
  [.readPrepare 0 none, .readQuery 0, .readStmtClose 0,
    .updateClose "/data/new-1.db" none, .updateStore openFine,
    .readPrepare 1 none, .readQuery 1, .readStmtClose 1]

/-- The process after `lockedSchedule`. -/
def swappedSys : Sys :=
  { svc := swappedService, w := swappedWorld, pending := none, stmts := [],
    uses := [(0, false), (0, false), (0, false), (1, false), (1, false), (1, false)] }

/-- A floating-point comparison that finds nothing equal; the examples use keys
whose comparison does not go through it. -/
def floatNever : Int → String → Bool := fun _ _ => false

/-- A driver that reports an error to the commit only. -/
def commitFails : OpenEnv :=
  { openFine with commitErr := some (.other "disk I/O error") }

/-- The world after `testService` has processed a message with the candidate
name `a?b`: the driver cut the data source name at the question mark, so the
seeded file is `/data/a`, and it holds the path as `getFilename` built it. -/
def questionWorld : World :=
  { files := fun p =>
      if p = "/data/a" then
        some { a := some { uniqueB := false,
                           rows := [{ b := .int 1, c := .text "/data/a?b.db" }] } }
      else testWorld.files p,
    handles := [{ path := "/data/test.db", closed := true },
                { path := "/data/a", closed := false }] }

/-! ## The retry loop of `getDB` -/

theorem beginLoop_first_success (beginErr : Nat → Option GoErr) (k : Nat)
    (hk : beginErr k = none) :
    ∀ (remaining made : Nat) (err : Option GoErr), made < k → k ≤ made + remaining →
      (∀ j, made < j → j < k → beginErr j ≠ none) →
      beginLoop beginErr remaining made err = (k, none) := by
  intro remaining
  induction remaining with
  | zero => intro made err h1 h2 _; omega
  | succ n ih =>
      intro made err h1 h2 hfail
      unfold beginLoop
      by_cases hEq : made + 1 = k
      · subst hEq
        simp [hk]
      · cases hb : beginErr (made + 1) with
        | none => exact absurd hb (hfail (made + 1) (by omega) (by omega))
        | some e =>
            simp only
            exact ih (made + 1) (some e) (by omega) (by omega)
              (fun j hj1 hj2 => hfail j (by omega) hj2)

theorem beginLoop_exhausted (beginErr : Nat → Option GoErr) :
    ∀ (remaining made : Nat) (err : Option GoErr), 0 < remaining →
      (∀ j, made < j → j ≤ made + remaining → beginErr j ≠ none) →
      beginLoop beginErr remaining made err =
        (made + remaining, beginErr (made + remaining)) := by
  intro remaining
  induction remaining with
  | zero => intro made err h; omega
  | succ n ih =>
      intro made err _ hfail
      unfold beginLoop
      cases hb : beginErr (made + 1) with
      | none => exact absurd hb (hfail (made + 1) (by omega) (by omega))
      | some e =>
          simp only
          cases n with
          | zero => simp [beginLoop, hb]
          | succ m =>
              rw [ih (made + 1) (some e) (by omega)
                (fun j hj1 hj2 => hfail j (by omega) (by omega))]
              have hsum : made + 1 + (m + 1) = made + (m + 1 + 1) := by omega
              rw [hsum]

/-- C9. When `sql.Open` succeeds: if the first successful `db.Begin` is call
number `k` with `1 ≤ k ≤ 400`, the loop of `getDB` makes exactly `k` calls and
`getDB` goes on to the setup transaction, returning the new handle (on the file
the driver opens for the data source name) when the two statements and the
commit succeed; if each of the first 400 calls fails, the loop makes exactly
400 calls and `getDB` panics with the error of the last. -/
theorem getDB_begin_budget (uni : Char → Bool) (env : OpenEnv) (w : World) (filename : String)
    (hopen : env.openErr = none) :
    (∀ k, 1 ≤ k → k ≤ 400 → env.beginErr k = none →
        (∀ j, 1 ≤ j → j < k → env.beginErr j ≠ none) →
        beginLoop env.beginErr 400 0 none = (k, none) ∧
        getDB uni env w filename = setupTx uni env w filename ∧
        (env.createErr = none → env.insertErr = none → env.commitErr = none →
          ∀ d, execSeed uni filename
              (execCreateTable ((w.files (dbFile filename)).getD { a := none })) = .ok d →
            getDB uni env w filename =
              .ok (w.handles.length,
                { files := fun p => if p = dbFile filename then some d else w.files p,
                  handles := w.handles ++ [{ path := dbFile filename, closed := false }] }))) ∧
    ((∀ j, 1 ≤ j → j ≤ 400 → env.beginErr j ≠ none) →
        ∃ e, env.beginErr 400 = some e ∧
          beginLoop env.beginErr 400 0 none = (400, some e) ∧
          getDB uni env w filename = .panic (.err e)) := by
  constructor
  · intro k hk1 hk2 hok hfail
    have hloop : beginLoop env.beginErr 400 0 none = (k, none) :=
      beginLoop_first_success env.beginErr k hok 400 0 none (by omega) (by omega)
        (fun j hj1 hj2 => hfail j (by omega) hj2)
    have hget : getDB uni env w filename = setupTx uni env w filename := by
      simp [getDB, hopen, hloop]
    refine ⟨hloop, hget, ?_⟩
    intro hc hi hcm d hd
    rw [hget]
    simp [setupTx, hc, hi, hcm, hd]
  · intro hfail
    have hloop := beginLoop_exhausted env.beginErr 400 0 none (by omega)
      (fun j hj1 hj2 => hfail j (by omega) (by omega))
    simp only [Nat.zero_add] at hloop
    cases hlast : env.beginErr 400 with
    | none => exact absurd hlast (hfail 400 (by omega) (by omega))
    | some e =>
        refine ⟨e, rfl, ?_, ?_⟩
        · rw [hloop, hlast]
        · simp [getDB, hopen, hloop, hlast]


theorem getDB_begin_budget_witness :
    lockedBriefly.openErr = none ∧
    beginLoop lockedBriefly.beginErr 400 0 none = (13, none) ∧
    ∃ e, getDB uniAll lockedForever emptyWorld "/data/test.db" = .panic (.err e) := by
  refine ⟨rfl, ?_, ?_⟩
  · exact ((getDB_begin_budget uniAll lockedBriefly emptyWorld "/data/test.db" rfl).1 13
      (by decide) (by decide) (by simp [lockedBriefly])
      (fun j _ hj => by simp [lockedBriefly]; omega)).1
  · obtain ⟨e, _, _, h⟩ :=
      (getDB_begin_budget uniAll lockedForever emptyWorld "/data/test.db" rfl).2
        (fun j _ _ => by simp [lockedForever])
    exact ⟨e, h⟩

/-! ## `service.update` -/

theorem getDB_lockedForever (uni : Char → Bool) (w : World) (filename : String) :
    getDB uni lockedForever w filename = .panic (.err (.other "database is locked")) := by
  have hloop := beginLoop_exhausted lockedForever.beginErr 400 0 none (by omega)
    (fun j _ _ => by simp [lockedForever])
  simp only [Nat.zero_add, lockedForever] at hloop
  simp [getDB, hloop, lockedForever, openFine]

/-- C2, as stated, fails: with the current connection closing without error and
the file of the new path locked throughout the retry budget, `service.update`
does not return `false`; it panics. -/
theorem update_open_failure_panics :
    dbClose none { path := "/data/test.db", closed := false } =
        (none, { path := "/data/test.db", closed := true }) ∧
    service.update uniAll { closeErr := none, openEnv := lockedForever } testWorld testService
        "/data/new-1.db" = .panic (.err (.other "database is locked")) ∧
    ∀ s w, service.update uniAll { closeErr := none, openEnv := lockedForever } testWorld
        testService "/data/new-1.db" ≠ .ok (false, s, w) := by
  have h : service.update uniAll { closeErr := none, openEnv := lockedForever } testWorld
      testService "/data/new-1.db" = .panic (.err (.other "database is locked")) := by
    simp [service.update, testWorld, testService, dbClose, getDB_lockedForever]
  refine ⟨rfl, h, ?_⟩
  intro s w hEq
  rw [h] at hEq
  cases hEq

theorem getDB_open_failed (uni : Char → Bool) (env : OpenEnv) (w : World)
    (filename : String) (e : GoErr) (h : env.openErr = some e) :
    getDB uni env w filename = .panic (.err e) := by
  simp [getDB, h]

theorem beginLoop_some_success (beginErr : Nat → Option GoErr) :
    ∀ (remaining made : Nat) (err : Option GoErr),
      (∃ k, made < k ∧ k ≤ made + remaining ∧ beginErr k = none) →
      (beginLoop beginErr remaining made err).2 = none := by
  intro remaining
  induction remaining with
  | zero =>
      intro made err h
      obtain ⟨k, h1, h2, _⟩ := h
      omega
  | succ n ih =>
      intro made err h
      obtain ⟨k, h1, h2, hk⟩ := h
      unfold beginLoop
      cases hb : beginErr (made + 1) with
      | none => rfl
      | some e =>
          simp only
          apply ih
          refine ⟨k, ?_, by omega, hk⟩
          by_contra hlt
          have hEq : k = made + 1 := by omega
          rw [hEq, hb] at hk
          cases hk

theorem getDB_begin_failed (uni : Char → Bool) (env : OpenEnv) (w : World)
    (filename : String) (ho : env.openErr = none)
    (hf : ∀ j, 1 ≤ j → j ≤ 400 → env.beginErr j ≠ none) :
    ∃ e, env.beginErr 400 = some e ∧ getDB uni env w filename = .panic (.err e) := by
  have hloop := beginLoop_exhausted env.beginErr 400 0 none (by omega)
    (fun j hj1 hj2 => hf j (by omega) (by omega))
  simp only [Nat.zero_add] at hloop
  cases hlast : env.beginErr 400 with
  | none => exact absurd hlast (hf 400 (by omega) (by omega))
  | some e => exact ⟨e, rfl, by simp [getDB, ho, hloop, hlast]⟩

theorem getDB_begun (uni : Char → Bool) (env : OpenEnv) (w : World) (filename : String)
    (ho : env.openErr = none) (hs : ∃ k, 1 ≤ k ∧ k ≤ 400 ∧ env.beginErr k = none) :
    getDB uni env w filename = setupTx uni env w filename := by
  obtain ⟨k, h1, h2, hk⟩ := hs
  have hloop := beginLoop_some_success env.beginErr 400 0 none ⟨k, by omega, by omega, hk⟩
  simp [getDB, ho, hloop]

theorem setupTx_create_failed (uni : Char → Bool) (env : OpenEnv) (w : World)
    (filename : String) (e : GoErr) (h : env.createErr = some e) :
    setupTx uni env w filename = .panic (.err e) := by
  simp [setupTx, h]

theorem setupTx_insert_failed (uni : Char → Bool) (env : OpenEnv) (w : World)
    (filename : String) (e : GoErr) (hc : env.createErr = none) (h : env.insertErr = some e) :
    setupTx uni env w filename = .panic (.err e) := by
  simp [setupTx, hc, h]

theorem setupTx_seed_rejected (uni : Char → Bool) (env : OpenEnv) (w : World)
    (filename : String) (e : GoErr) (hc : env.createErr = none) (hi : env.insertErr = none)
    (h : execSeed uni filename
      (execCreateTable ((w.files (dbFile filename)).getD { a := none })) = .error e) :
    setupTx uni env w filename = .panic (.err e) := by
  simp [setupTx, hc, hi, h]

theorem setupTx_commit_failed (uni : Char → Bool) (env : OpenEnv) (w : World)
    (filename : String) (e : GoErr) (d : Database) (hc : env.createErr = none)
    (hi : env.insertErr = none)
    (hd : execSeed uni filename
      (execCreateTable ((w.files (dbFile filename)).getD { a := none })) = .ok d)
    (h : env.commitErr = some e) :
    setupTx uni env w filename = .panic (.err e) := by
  simp [setupTx, hc, hi, hd, h]

theorem setupTx_done (uni : Char → Bool) (env : OpenEnv) (w : World)
    (filename : String) (d : Database) (hc : env.createErr = none)
    (hi : env.insertErr = none)
    (hd : execSeed uni filename
      (execCreateTable ((w.files (dbFile filename)).getD { a := none })) = .ok d)
    (h : env.commitErr = none) :
    setupTx uni env w filename =
      .ok (w.handles.length,
        { files := fun p => if p = dbFile filename then some d else w.files p,
          handles := w.handles ++ [{ path := dbFile filename, closed := false }] }) := by
  simp [setupTx, hc, hi, hd, h]

theorem update_after_close (uni : Char → Bool) (env : UpdateEnv) (w : World) (s : service)
    (filename : String) (h : Handle) (hh : w.handles[s.db]? = some h)
    (hc : (dbClose env.closeErr h).1 = none) :
    service.update uni env w s filename =
      match getDB uni env.openEnv
          { w with handles := w.handles.set s.db { h with closed := true } } filename with
      | .panic v => .panic v
      | .ok (db, w2) => .ok (true, { s with db := db }, w2) := by
  simp only [dbClose] at hc
  simp [service.update, hh, hc, dbClose]

theorem update_cases (uni : Char → Bool) (env : UpdateEnv) (w : World) (s : service)
    (filename : String) (h : Handle) (hh : w.handles[s.db]? = some h) :
    (∀ e, (dbClose env.closeErr h).1 = some e →
        service.update uni env w s filename =
          .ok (false, s, { w with handles := w.handles.set s.db { h with closed := true } })) ∧
    ((dbClose env.closeErr h).1 = none →
        ∀ v, getDB uni env.openEnv
            { w with handles := w.handles.set s.db { h with closed := true } } filename =
              .panic v →
          service.update uni env w s filename = .panic v) ∧
    (∀ s2 w2, service.update uni env w s filename = .ok (true, s2, w2) →
        (dbClose env.closeErr h).1 = none ∧ s2.filename = s.filename ∧
        getDB uni env.openEnv
            { w with handles := w.handles.set s.db { h with closed := true } } filename =
          .ok (s2.db, w2)) ∧
    (∀ s2 w2, service.update uni env w s filename = .ok (false, s2, w2) →
        ∃ e, (dbClose env.closeErr h).1 = some e) := by
  refine ⟨?_, ?_, ?_, ?_⟩
  · intro e he
    simp only [dbClose] at he
    simp [service.update, hh, he, dbClose]
  · intro hc v hv
    simp only [dbClose] at hc
    simp [service.update, hh, hc, hv, dbClose]
  · intro s2 w2 hup
    cases hc : (dbClose env.closeErr h).1 with
    | some e =>
        simp only [dbClose] at hc
        simp [service.update, hh, hc, dbClose] at hup
    | none =>
        simp only [dbClose] at hc
        cases hg : getDB uni env.openEnv
            { w with handles := w.handles.set s.db { h with closed := true } } filename with
        | panic v => simp [service.update, hh, hc, hg, dbClose] at hup
        | ok r =>
            obtain ⟨db, w3⟩ := r
            simp [service.update, hh, hc, hg, dbClose] at hup
            obtain ⟨hs, hw⟩ := hup
            subst hs hw
            exact ⟨rfl, rfl, rfl⟩
  · intro s2 w2 hup
    cases hc : (dbClose env.closeErr h).1 with
    | some e => exact ⟨e, rfl⟩
    | none =>
        simp only [dbClose] at hc
        cases hg : getDB uni env.openEnv
            { w with handles := w.handles.set s.db { h with closed := true } } filename with
        | panic v => simp [service.update, hh, hc, hg, dbClose] at hup
        | ok r =>
            obtain ⟨db, w3⟩ := r
            simp [service.update, hh, hc, hg, dbClose] at hup


/-- C2, amended. On a live handle `h`: when `Close` reports an error,
`service.update` returns `false` without a panic, leaving the `db` field as it
was. When `Close` succeeds, each failure inside `getDB` is a panic of
`service.update` with that error: an error of `sql.Open`; 400 failed calls of
`Begin` (the error of the last); and, once a `Begin` within the budget has
succeeded, an error of the `CREATE TABLE` statement, of the `INSERT` statement
(reported by the driver or by the engine itself), or of the commit. When none
of them fails it returns `true` with the `db` field on the new handle. It
returns `true` only when `Close` succeeded and `getDB` returned, and `false`
only when `Close` failed. -/
theorem update_result (uni : Char → Bool) (env : UpdateEnv) (w : World) (s : service)
    (filename : String) (h : Handle) (hh : w.handles[s.db]? = some h) :
    (∀ e, (dbClose env.closeErr h).1 = some e →
        service.update uni env w s filename =
          .ok (false, s, { w with handles := w.handles.set s.db { h with closed := true } })) ∧
    ((dbClose env.closeErr h).1 = none →
        (∀ e, env.openEnv.openErr = some e →
          service.update uni env w s filename = .panic (.err e)) ∧
        (env.openEnv.openErr = none →
          (∀ j, 1 ≤ j → j ≤ 400 → env.openEnv.beginErr j ≠ none) →
          ∃ e, env.openEnv.beginErr 400 = some e ∧
            service.update uni env w s filename = .panic (.err e)) ∧
        (env.openEnv.openErr = none →
          (∃ k, 1 ≤ k ∧ k ≤ 400 ∧ env.openEnv.beginErr k = none) →
          (∀ e, env.openEnv.createErr = some e →
            service.update uni env w s filename = .panic (.err e)) ∧
          (env.openEnv.createErr = none → ∀ e, env.openEnv.insertErr = some e →
            service.update uni env w s filename = .panic (.err e)) ∧
          (env.openEnv.createErr = none → env.openEnv.insertErr = none →
            ∀ e, execSeed uni filename
                (execCreateTable ((w.files (dbFile filename)).getD { a := none })) = .error e →
              service.update uni env w s filename = .panic (.err e)) ∧
          (env.openEnv.createErr = none → env.openEnv.insertErr = none →
            ∀ d, execSeed uni filename
                (execCreateTable ((w.files (dbFile filename)).getD { a := none })) = .ok d →
              (∀ e, env.openEnv.commitErr = some e →
                service.update uni env w s filename = .panic (.err e)) ∧
              (env.openEnv.commitErr = none →
                service.update uni env w s filename =
                  .ok (true, { filename := s.filename, db := w.handles.length },
                    { files := fun p => if p = dbFile filename then some d else w.files p,
                      handles := w.handles.set s.db { h with closed := true } ++
                        [{ path := dbFile filename, closed := false }] }))))) ∧
    (∀ s2 w2, service.update uni env w s filename = .ok (true, s2, w2) →
        (dbClose env.closeErr h).1 = none ∧ s2.filename = s.filename ∧
        getDB uni env.openEnv
            { w with handles := w.handles.set s.db { h with closed := true } } filename =
          .ok (s2.db, w2)) ∧
    (∀ s2 w2, service.update uni env w s filename = .ok (false, s2, w2) →
        ∃ e, (dbClose env.closeErr h).1 = some e) := by
  have hcases := update_cases uni env w s filename h hh
  refine ⟨hcases.1, ?_, hcases.2.2.1, hcases.2.2.2⟩
  intro hc
  have hup := update_after_close uni env w s filename h hh hc
  refine ⟨?_, ?_, ?_⟩
  · intro e he
    rw [hup, getDB_open_failed uni env.openEnv
      { w with handles := w.handles.set s.db { h with closed := true } } filename e he]
  · intro ho hf
    obtain ⟨e, he, hg⟩ := getDB_begin_failed uni env.openEnv
      { w with handles := w.handles.set s.db { h with closed := true } } filename ho hf
    exact ⟨e, he, by rw [hup, hg]⟩
  · intro ho hs
    have hg := getDB_begun uni env.openEnv
      { w with handles := w.handles.set s.db { h with closed := true } } filename ho hs
    rw [hg] at hup
    refine ⟨?_, ?_, ?_, ?_⟩
    · intro e he
      rw [hup, setupTx_create_failed uni env.openEnv
        { w with handles := w.handles.set s.db { h with closed := true } } filename e he]
    · intro hcr e he
      rw [hup, setupTx_insert_failed uni env.openEnv
        { w with handles := w.handles.set s.db { h with closed := true } } filename e hcr he]
    · intro hcr hi e he
      rw [hup, setupTx_seed_rejected uni env.openEnv
        { w with handles := w.handles.set s.db { h with closed := true } } filename e hcr hi he]
    · intro hcr hi d hd
      constructor
      · intro e he
        rw [hup, setupTx_commit_failed uni env.openEnv
          { w with handles := w.handles.set s.db { h with closed := true } } filename e d hcr hi hd he]
      · intro hcm
        rw [hup, setupTx_done uni env.openEnv
          { w with handles := w.handles.set s.db { h with closed := true } } filename d hcr hi hd hcm]
        simp

theorem update_result_witness :
    testWorld.handles[testService.db]? = some { path := "/data/test.db", closed := false } ∧
    service.update uniAll { closeErr := some (.other "disk I/O error"), openEnv := openFine }
        testWorld testService "/data/new-1.db" =
      .ok (false, testService,
        { testWorld with
          handles := testWorld.handles.set testService.db
            { path := "/data/test.db", closed := true } }) ∧
    service.update uniAll { closeErr := none, openEnv := commitFails } testWorld testService
        "/data/new-1.db" = .panic (.err (.other "disk I/O error")) ∧
    service.update uniAll updateFine testWorld testService "/data/new-1.db" =
      .ok (true, swappedService, swappedWorld) :=
  ⟨rfl,
    (update_result uniAll { closeErr := some (.other "disk I/O error"), openEnv := openFine }
      testWorld testService "/data/new-1.db" { path := "/data/test.db", closed := false } rfl).1
      (.other "disk I/O error") rfl,
    ((((update_result uniAll { closeErr := none, openEnv := commitFails } testWorld testService
      "/data/new-1.db" { path := "/data/test.db", closed := false } rfl).2.1 rfl).2.2 rfl
      ⟨1, by decide, by decide, rfl⟩).2.2.2 rfl rfl _ rfl).1 (.other "disk I/O error") rfl,
    rfl⟩

/-! ## One pass of `checkUpdate` -/

theorem setupTx_ok (uni : Char → Bool) (env : OpenEnv) (w : World) (filename : String)
    (db : Nat) (w2 : World) (h : setupTx uni env w filename = .ok (db, w2)) :
    db = w.handles.length ∧
      w2.handles = w.handles ++ [{ path := dbFile filename, closed := false }] ∧
      ∃ d, execSeed uni filename
          (execCreateTable ((w.files (dbFile filename)).getD { a := none })) = .ok d ∧
        w2.files = fun p => if p = dbFile filename then some d else w.files p := by
  unfold setupTx at h
  split at h
  · cases h
  · simp only at h
    split at h
    · cases h
    · split at h
      · cases h
      · rename_i d2 hd2
        split at h
        · cases h
        · injection h with h
          injection h with h1 h2
          subst h1 h2
          exact ⟨rfl, rfl, d2, hd2, rfl⟩

theorem getDB_ok (uni : Char → Bool) (env : OpenEnv) (w : World) (filename : String)
    (db : Nat) (w2 : World) (h : getDB uni env w filename = .ok (db, w2)) :
    db = w.handles.length ∧
      w2.handles = w.handles ++ [{ path := dbFile filename, closed := false }] ∧
      ∃ d, execSeed uni filename
          (execCreateTable ((w.files (dbFile filename)).getD { a := none })) = .ok d ∧
        w2.files = fun p => if p = dbFile filename then some d else w.files p := by
  unfold getDB at h
  split at h
  · cases h
  · split at h
    · cases h
    · exact setupTx_ok uni env w filename db w2 h

theorem update_true (uni : Char → Bool) (env : UpdateEnv) (w : World) (s : service)
    (filename : String) (s2 : service) (w2 : World)
    (h : service.update uni env w s filename = .ok (true, s2, w2)) :
    ∃ h0, w.handles[s.db]? = some h0 ∧
      s2 = { filename := s.filename, db := w.handles.length } ∧
      w2.handles = w.handles.set s.db { h0 with closed := true } ++
        [{ path := dbFile filename, closed := false }] := by
  cases hh : w.handles[s.db]? with
  | none => simp [service.update, hh] at h
  | some h0 =>
      cases hc : (if h0.closed = true then none else env.closeErr) with
      | some e => simp [service.update, hh, hc, dbClose] at h
      | none =>
          cases hg : getDB uni env.openEnv
              { w with handles := w.handles.set s.db { h0 with closed := true } } filename with
          | panic v => simp [service.update, hh, hc, hg, dbClose] at h
          | ok r =>
              obtain ⟨db, w3⟩ := r
              simp [service.update, hh, hc, hg, dbClose] at h
              obtain ⟨hs, hw⟩ := h
              subst hs hw
              obtain ⟨hdb, hhs, _⟩ := getDB_ok uni env.openEnv _ filename db w3 hg
              simp only [List.length_set] at hdb
              subst hdb
              exact ⟨h0, rfl, rfl, hhs⟩

theorem checkUpdateIter_ok (uni : Char → Bool) (id : String) (env : UpdateEnv) (w : World)
    (svc : service) (raw : String) (m : msgUpdate) (svc2 : service) (w2 : World)
    (started : List Takeover)
    (h : checkUpdateIter uni id env w svc (.message raw (.ok m)) = .ok (svc2, w2, started)) :
    service.update uni env w svc (getFilename m.Name) = .ok (true, svc2, w2) ∧
      started = if m.Id ≠ id then [] else [{ filename := getFilename m.Name }] := by
  cases hu : service.update uni env w svc (getFilename m.Name) with
  | panic v => simp [checkUpdateIter, hu] at h
  | ok r =>
      obtain ⟨b, s3, w3⟩ := r
      cases b with
      | false => simp [checkUpdateIter, hu] at h
      | true =>
          by_cases hid : m.Id = id
          · simp [checkUpdateIter, hu, hid] at h
            obtain ⟨h1, h2, h3⟩ := h
            subst h1 h2 h3
            simp [hid]
          · simp [checkUpdateIter, hu, hid] at h
            obtain ⟨h1, h2, h3⟩ := h
            subst h1 h2 h3
            simp [hid]

/-- C1. For a decoded message `m` whose pass of `checkUpdate` completes (the
handle replacement succeeded): when `m.Id` differs from the process identity
the pass starts no takeover goroutine, so no `os.Remove` and no `os.Rename` is
made on its account; when `m.Id` equals the identity it starts exactly one, for
the path `getFilename m.Name`. -/
theorem checkUpdateIter_takeover (uni : Char → Bool) (id : String) (env : UpdateEnv)
    (w : World) (svc : service) (raw : String) (m : msgUpdate) (svc2 : service) (w2 : World)
    (started : List Takeover)
    (h : checkUpdateIter uni id env w svc (.message raw (.ok m)) = .ok (svc2, w2, started)) :
    (m.Id ≠ id → started = [] ∧
        ∀ (envs : Nat → TakeoverEnv) (k : Nat) (fs : FS Nat),
          takeoverCalls envs svc2 started k fs = []) ∧
    (m.Id = id → started = [{ filename := getFilename m.Name }] ∧ started.length = 1) := by
  obtain ⟨_, hst⟩ := checkUpdateIter_ok uni id env w svc raw m svc2 w2 started h
  constructor
  · intro hne
    have : started = [] := by simp [hst, hne]
    subst this
    exact ⟨rfl, fun _ _ _ => rfl⟩
  · intro heq
    have : started = [{ filename := getFilename m.Name }] := by simp [hst, heq]
    subst this
    exact ⟨rfl, rfl⟩


theorem checkUpdateIter_takeover_witness :
    checkUpdateIter uniAll "X" updateFine testWorld testService
        (.message "" (.ok { Id := "X", Name := "new-1" })) =
      .ok (swappedService, swappedWorld, [{ filename := "/data/new-1.db" }]) ∧
    ([{ filename := "/data/new-1.db" }] : List Takeover).length = 1 ∧
    checkUpdateIter uniAll "Y" updateFine testWorld testService
        (.message "" (.ok { Id := "X", Name := "new-1" })) =
      .ok (swappedService, swappedWorld, []) ∧
    ∀ (envs : Nat → TakeoverEnv) (k : Nat) (fs : FS Nat),
      takeoverCalls envs swappedService [] k fs = [] :=
  ⟨rfl,
    ((checkUpdateIter_takeover uniAll "X" updateFine testWorld testService ""
      { Id := "X", Name := "new-1" } swappedService swappedWorld
      [{ filename := "/data/new-1.db" }] rfl).2 rfl).2,
    rfl,
    ((checkUpdateIter_takeover uniAll "Y" updateFine testWorld testService ""
      { Id := "X", Name := "new-1" } swappedService swappedWorld [] rfl).1 (by decide)).2⟩

theorem checkUpdateIter_filename (uni : Char → Bool) (id : String) (env : UpdateEnv)
    (w : World) (svc : service) (r : Received) (svc2 : service) (w2 : World)
    (started : List Takeover)
    (h : checkUpdateIter uni id env w svc r = .ok (svc2, w2, started)) :
    svc2.filename = svc.filename := by
  cases r with
  | recvErr e =>
      simp [checkUpdateIter] at h
      rw [← h.1]
  | message raw decoded =>
      cases decoded with
      | error e => simp [checkUpdateIter] at h
      | ok m =>
          obtain ⟨hu, _⟩ := checkUpdateIter_ok uni id env w svc raw m svc2 w2 started h
          obtain ⟨_, _, hs, _⟩ := update_true uni env w svc _ svc2 w2 hu
          rw [hs]

theorem checkUpdate_filename (uni : Char → Bool) (id : String) :
    ∀ (msgs : List (Received × UpdateEnv)) (w : World) (svc svc3 : service) (w3 : World)
      (st : List Takeover),
      checkUpdate uni id msgs w svc = .ok (svc3, w3, st) → svc3.filename = svc.filename := by
  intro msgs
  induction msgs with
  | nil =>
      intro w svc svc3 w3 st h
      simp [checkUpdate] at h
      rw [← h.1]
  | cons hd rest ih =>
      intro w svc svc3 w3 st h
      obtain ⟨r, env⟩ := hd
      cases hi : checkUpdateIter uni id env w svc r with
      | panic v => simp [checkUpdate, hi] at h
      | ok res =>
          obtain ⟨svc2, w2, started⟩ := res
          cases hr : checkUpdate uni id rest w2 svc2 with
          | panic v => simp [checkUpdate, hi, hr] at h
          | ok res2 =>
              obtain ⟨svc4, w4, later⟩ := res2
              simp [checkUpdate, hi, hr] at h
              rw [← h.1, ih w2 svc2 svc4 w4 later hr]
              exact checkUpdateIter_filename uni id env w svc r svc2 w2 started hi

theorem takeWhile_append_stop (p : Char → Bool) (c : Char) (rest : List Char)
    (hc : p c = false) :
    ∀ l : List Char, (l ++ c :: rest).takeWhile p = l.takeWhile p := by
  intro l
  induction l with
  | nil => simp [List.takeWhile, hc]
  | cons x xs ih =>
      by_cases hx : p x = true
      · simp [List.takeWhile, hx, ih]
      · simp [List.takeWhile, hx]

theorem dbFile_getFilename (n : String) :
    dbFile (getFilename n) =
      String.mk ((getFilename n).data.takeWhile (fun c => c != '?')) := by
  have hdata : (dataSourceName (getFilename n)).data =
      (getFilename n).data ++
        '?' :: "_journal=wal&_txlock=immediate&_busy_timeout=10000".data := by
    simp [dataSourceName, String.data_append]
  have htake := takeWhile_append_stop (fun c => c != '?') '?'
    "_journal=wal&_txlock=immediate&_busy_timeout=10000".data (by decide)
    (getFilename n).data
  have hfn : (getFilename n).data = '/' :: ("data/".data ++ n.data ++ ".db".data) := by
    simp [getFilename, String.data_append]
  unfold dbFile openName
  rw [hdata, htake]
  rw [hfn]
  simp [List.takeWhile, List.isPrefixOf]

theorem dbFile_getFilename_plain (n : String) (hq : '?' ∉ n.data) :
    dbFile (getFilename n) = getFilename n := by
  rw [dbFile_getFilename]
  have hall : ∀ c ∈ (getFilename n).data, (c != '?') = true := by
    intro c hc
    have hfn : (getFilename n).data = "/data/".data ++ n.data ++ ".db".data := by
      simp [getFilename, String.data_append]
    rw [hfn] at hc
    simp only [List.mem_append] at hc
    rcases hc with (hc | hc) | hc
    · revert c; decide
    · have : c ≠ '?' := fun hEq => hq (hEq ▸ hc)
      simpa using this
    · revert c; decide
  rw [List.takeWhile_eq_self_iff.mpr hall]

/-- C5, as stated, fails: for the candidate name `a?b` the pass completes and
the live handle is then on the file `/data/a`, which is not
`getFilename "a?b"`; no file is at `/data/a?b.db`. -/
theorem checkUpdate_question_mark_name :
    checkUpdateIter uniAll "X" updateFine testWorld testService
        (.message "" (.ok { Id := "X", Name := "a?b" })) =
      .ok (swappedService, questionWorld, [{ filename := "/data/a?b.db" }]) ∧
    questionWorld.handles[swappedService.db]? = some { path := "/data/a", closed := false } ∧
    getFilename "a?b" = "/data/a?b.db" ∧
    questionWorld.handles[swappedService.db]? ≠
      some { path := getFilename "a?b", closed := false } ∧
    questionWorld.files (getFilename "a?b") = none :=
  ⟨rfl, rfl, rfl, by decide, rfl⟩

/-- C5, amended. For a decoded message with candidate name `m.Name` whose pass
of `checkUpdate` completes: the `db` field then points at an open handle on the
file the driver opens for the data source name built from
`"/data/" ++ m.Name ++ ".db"`, which is the text of that path before its first
question mark, and the path itself when `m.Name` holds no question mark; the
handle it pointed at before is closed, and the field `filename` is unchanged.
Hence after any sequence of deliveries processed by `checkUpdate`, `filename`
is still the path `newService` was given. -/
theorem checkUpdate_swaps_handle_keeps_filename (uni : Char → Bool) (id : String) :
    (∀ (env : UpdateEnv) (w : World) (svc : service) (raw : String) (m : msgUpdate)
        (svc2 : service) (w2 : World) (started : List Takeover),
        checkUpdateIter uni id env w svc (.message raw (.ok m)) = .ok (svc2, w2, started) →
        getFilename m.Name = "/data/" ++ m.Name ++ ".db" ∧
        w2.handles[svc2.db]? =
          some { path := dbFile (getFilename m.Name), closed := false } ∧
        dbFile (getFilename m.Name) =
          String.mk ((getFilename m.Name).data.takeWhile (fun c => c != '?')) ∧
        ('?' ∉ m.Name.data →
          w2.handles[svc2.db]? = some { path := getFilename m.Name, closed := false }) ∧
        (∃ h0, w.handles[svc.db]? = some h0 ∧
          w2.handles[svc.db]? = some { path := h0.path, closed := true }) ∧
        svc2.filename = svc.filename) ∧
    (∀ (env0 : OpenEnv) (w0 : World) (name : String) (svc0 : service) (w1 : World),
        newService uni env0 w0 name = .ok (svc0, w1) →
        ∀ (msgs : List (Received × UpdateEnv)) (svc3 : service) (w3 : World)
          (st : List Takeover),
          checkUpdate uni id msgs w1 svc0 = .ok (svc3, w3, st) →
          svc3.filename = getFilename name) := by
  constructor
  · intro env w svc raw m svc2 w2 started h
    obtain ⟨hu, _⟩ := checkUpdateIter_ok uni id env w svc raw m svc2 w2 started h
    obtain ⟨h0, hh0, hs, hw⟩ := update_true uni env w svc _ svc2 w2 hu
    have hlt : svc.db < w.handles.length := by
      by_contra hge
      rw [List.getElem?_eq_none (by omega)] at hh0
      cases hh0
    have hnew : w2.handles[svc2.db]? =
        some { path := dbFile (getFilename m.Name), closed := false } := by
      rw [hs, hw]
      simp
    refine ⟨rfl, hnew, dbFile_getFilename m.Name, ?_, ⟨h0, hh0, ?_⟩, ?_⟩
    · intro hq
      rw [hnew, dbFile_getFilename_plain m.Name hq]
    · rw [hw, List.getElem?_append_left (by simpa using hlt)]
      simp [List.getElem?_set, hlt]
    · rw [hs]
  · intro env0 w0 name svc0 w1 hnew msgs svc3 w3 st h
    rw [checkUpdate_filename uni id msgs w1 svc0 svc3 w3 st h]
    cases hg : getDB uni env0 w0 (getFilename name) with
    | panic v => simp [newService, hg] at hnew
    | ok r =>
        obtain ⟨db, w2⟩ := r
        simp [newService, hg] at hnew
        rw [← hnew.1]

theorem checkUpdate_swaps_handle_keeps_filename_witness :
    checkUpdateIter uniAll "X" updateFine testWorld testService
        (.message "" (.ok { Id := "X", Name := "new-1" })) =
      .ok (swappedService, swappedWorld, [{ filename := "/data/new-1.db" }]) ∧
    swappedWorld.handles[swappedService.db]? =
      some { path := getFilename "new-1", closed := false } ∧
    swappedService.filename = testService.filename :=
  have h := (checkUpdate_swaps_handle_keeps_filename uniAll "X").1 updateFine testWorld
    testService "" { Id := "X", Name := "new-1" } swappedService swappedWorld
    [{ filename := "/data/new-1.db" }] rfl
  ⟨rfl, h.2.2.2.1 (by decide), h.2.2.2.2.2⟩

/-! ## The seed row -/

theorem execInsertOrIgnore_unconstrained (key : Int) (value : String) (rows : List Row) :
    execInsertOrIgnore key value { a := some { uniqueB := false, rows := rows } } =
      some { a := some { uniqueB := false,
                         rows := rows ++ [{ b := .int key, c := .text value }] } } := by
  simp [execInsertOrIgnore]

theorem execInsertOrIgnore_unique_present (key : Int) (value : String) (rows : List Row)
    (r : Row) (hr : r ∈ rows) (hb : r.b = .int key) :
    execInsertOrIgnore key value { a := some { uniqueB := true, rows := rows } } =
      some { a := some { uniqueB := true, rows := rows } } := by
  have hany : rows.any (fun r => decide (r.b = SqlValue.int key)) = true :=
    List.any_eq_true.mpr ⟨r, hr, by simp [hb]⟩
  simp [execInsertOrIgnore, hany]

/-- C3, at the input `/data/test.db`. The first `getDB` on a path with no file
leaves the one seed row; the second `getDB` on the same path appends a second
row with the same key and value, because table `a` has no constraint for
`OR IGNORE` to act on. -/
theorem getDB_twice_two_seed_rows :
    getDB uniAll openFine emptyWorld "/data/test.db" = .ok (0, testWorld) ∧
    getDB uniAll openFine testWorld "/data/test.db" = .ok (1, reopenedWorld) ∧
    reopenedWorld.files "/data/test.db" =
      some { a := some { uniqueB := false,
                         rows := [{ b := .int 1, c := .text "/data/test.db" },
                                  { b := .int 1, c := .text "/data/test.db" }] } } ∧
    ((reopenedWorld.files "/data/test.db").bind (fun d => d.a)).map (fun t => t.rows.length) =
      some 2 :=
  ⟨rfl, rfl, rfl, rfl⟩

/-- C8, at the input `/data/a\b.db`. On a path with no file, `getDB` returns and
`service.read("1")` then returns a `nil` error with the value
`/data/a\\b.db`, which is not the path: `%q` doubled the backslash and the
engine kept both. -/
theorem seed_value_differs_from_path :
    backslashPath.data = "/data/a".data ++ [bslash] ++ "b.db".data ∧
    getDB uniAll openFine emptyWorld backslashPath = .ok (0, backslashWorld) ∧
    (∀ floatEq : Int → String → Bool,
      service.read floatEq readFine backslashWorld { filename := backslashPath, db := 0 } "1" =
        .ok (backslashStored, none)) ∧
    backslashStored ≠ backslashPath :=
  ⟨rfl, rfl, fun _ => rfl, by decide⟩

/-! ## Reading a key -/

theorem prepareLoop_success (prep : Nat → Except GoErr Table) (t : Table)
    (hdet : ∀ k t2, prep k = .ok t2 → t2 = t) :
    ∀ (remaining made : Nat) (cur : Option GoErr × Option Table),
      (∃ k, made < k ∧ k ≤ made + remaining ∧ ∃ t2, prep k = .ok t2) →
      prepareLoop prep remaining made cur = (none, some t) := by
  intro remaining
  induction remaining with
  | zero =>
      intro made cur h
      obtain ⟨k, h1, h2, _⟩ := h
      omega
  | succ n ih =>
      intro made cur h
      obtain ⟨k, h1, h2, t2, hk⟩ := h
      unfold prepareLoop
      cases hp : prep (made + 1) with
      | ok t3 =>
          simp only
          rw [hdet (made + 1) t3 hp]
      | error e =>
          simp only
          apply ih
          refine ⟨k, ?_, by omega, t2, hk⟩
          by_contra hlt
          have hEq : k = made + 1 := by omega
          rw [hEq, hp] at hk
          cases hk

theorem errorsIs_iff_mem (target : GoErr) :
    ∀ e : GoErr, errorsIs e target = true ↔ target ∈ unwrapChain e := by
  intro e
  induction e with
  | errNoRows =>
      simp only [errorsIs, unwrapChain, decide_eq_true_eq, List.mem_singleton]
      exact eq_comm
  | other msg =>
      simp only [errorsIs, unwrapChain, decide_eq_true_eq, List.mem_singleton]
      exact eq_comm
  | wrapped msg inner ih =>
      simp only [errorsIs, unwrapChain, Bool.or_eq_true, decide_eq_true_eq, List.mem_cons, ih]
      constructor
      · rintro (h | h)
        · exact Or.inl h.symm
        · exact Or.inr h
      · rintro (h | h)
        · exact Or.inl h.symm
        · exact Or.inr h

/-- The comparison `b = ?` on a row with `b = 1`, for several bound texts: white
space and a sign are skipped, a point or an exponent does not prevent the
match, and only a text whose conversion rounds is left to `floatEq`. -/
theorem rowMatches_integer_texts (floatEq : Int → String → Bool) (c : SqlValue) :
    rowMatches floatEq "1" { b := .int 1, c := c } = true ∧
    rowMatches floatEq " 1" { b := .int 1, c := c } = true ∧
    rowMatches floatEq "1 " { b := .int 1, c := c } = true ∧
    rowMatches floatEq "+1" { b := .int 1, c := c } = true ∧
    rowMatches floatEq "1.0" { b := .int 1, c := c } = true ∧
    rowMatches floatEq "1e0" { b := .int 1, c := c } = true ∧
    rowMatches floatEq "10e-1" { b := .int 1, c := c } = true ∧
    rowMatches floatEq "1.5" { b := .int 1, c := c } = false ∧
    rowMatches floatEq "1x" { b := .int 1, c := c } = false ∧
    rowMatches floatEq "2" { b := .int 1, c := c } = false ∧
    rowMatches floatEq "1.0000000000000001" { b := .int 1, c := c } =
      floatEq 1 "1.0000000000000001" :=
  ⟨rfl, rfl, rfl, rfl, rfl, rfl, rfl, rfl, rfl, rfl, rfl⟩

/-- C7. On an open handle whose file holds table `t`: for a key that the
engine's comparison `b = ?` matches with no row of `t`, when some `Prepare`
among the 100 of the budget succeeds, `service.read` returns the error
`sql.ErrNoRows` wrapped by `"scan err: %w"`, `sql.ErrNoRows` is in its chain and
`errors.Is` finds it, and the handler answers 404 and not 500. Conversely,
whatever `service.read` was called on, an error whose chain does not hold
`sql.ErrNoRows` is answered with 500 and not 404, and the handler answers 404
only to an error of `service.read` whose chain holds `sql.ErrNoRows`. -/
theorem read_absent_key_not_found (uni : Char → Bool) (floatEq : Int → String → Bool)
    (id : String) (env : ReadEnv)
    (w : World) (svc : service) (key : String) (h : Handle) (t : Table)
    (hh : w.handles[svc.db]? = some h) (hopen : h.closed = false)
    (ht : (w.files h.path).bind (fun d => d.a) = some t)
    (hprep : ∃ k, 1 ≤ k ∧ k ≤ 100 ∧ env.prepareErr k = none)
    (habsent : ∀ r ∈ t.rows, rowMatches floatEq key r = false) :
    (service.read floatEq env w svc key =
        .ok ("", some (.wrapped "scan err: " .errNoRows)) ∧
      GoErr.errNoRows ∈ unwrapChain (.wrapped "scan err: " .errNoRows) ∧
      errorsIs (.wrapped "scan err: " .errNoRows) .errNoRows = true ∧
      read uni floatEq id env w svc key = .ok (.sendStatus StatusNotFound) ∧
      read uni floatEq id env w svc key ≠ .ok (.sendStatus StatusInternalServerError)) ∧
    (∀ (env2 : ReadEnv) (w2 : World) (svc2 : service) (key2 value : String) (e : GoErr),
      service.read floatEq env2 w2 svc2 key2 = .ok (value, some e) →
      GoErr.errNoRows ∉ unwrapChain e →
      errorsIs e .errNoRows = false ∧
      read uni floatEq id env2 w2 svc2 key2 = .ok (.sendStatus StatusInternalServerError) ∧
      read uni floatEq id env2 w2 svc2 key2 ≠ .ok (.sendStatus StatusNotFound)) ∧
    (∀ (env2 : ReadEnv) (w2 : World) (svc2 : service) (key2 : String),
      read uni floatEq id env2 w2 svc2 key2 = .ok (.sendStatus StatusNotFound) →
      ∃ value e, service.read floatEq env2 w2 svc2 key2 = .ok (value, some e) ∧
        GoErr.errNoRows ∈ unwrapChain e) := by
  have hloop : prepareLoop (fun k => dbPrepare (env.prepareErr k) w h) 100 0 (none, none) =
      (none, some t) := by
    apply prepareLoop_success _ t
    · intro k t2 hk
      simp only [dbPrepare, hopen, ht] at hk
      cases hpe : env.prepareErr k with
      | some e => simp [hpe] at hk
      | none =>
          simp [hpe] at hk
          exact hk.symm
    · obtain ⟨k, h1, h2, hk⟩ := hprep
      exact ⟨k, by omega, by omega, t, by simp [dbPrepare, hopen, ht, hk]⟩
  have hfind : t.rows.find? (rowMatches floatEq key) = none := by
    rw [List.find?_eq_none]
    intro r hr
    simp [habsent r hr]
  have hread : service.read floatEq env w svc key =
      .ok ("", some (.wrapped "scan err: " .errNoRows)) := by
    simp [service.read, hh, hloop, queryRowScan, hfind]
  have hmem : GoErr.errNoRows ∈ unwrapChain (.wrapped "scan err: " .errNoRows) := by
    simp [unwrapChain]
  have his : errorsIs (.wrapped "scan err: " .errNoRows) .errNoRows = true :=
    (errorsIs_iff_mem .errNoRows _).mpr hmem
  refine ⟨⟨hread, hmem, his, ?_, ?_⟩, ?_, ?_⟩
  · simp [read, hread, readRespond, his]
  · simp [read, hread, readRespond, his, StatusNotFound, StatusInternalServerError]
  · intro env2 w2 svc2 key2 value e hr hnot
    have hfalse : errorsIs e .errNoRows = false := by
      cases hE : errorsIs e .errNoRows with
      | false => rfl
      | true => exact absurd ((errorsIs_iff_mem .errNoRows e).mp hE) hnot
    refine ⟨hfalse, ?_, ?_⟩
    · simp [read, hr, readRespond, hfalse]
    · simp [read, hr, readRespond, hfalse, StatusNotFound, StatusInternalServerError]
  · intro env2 w2 svc2 key2 hresp
    cases hr : service.read floatEq env2 w2 svc2 key2 with
    | panic v => simp [read, hr] at hresp
    | ok res =>
        obtain ⟨value, err⟩ := res
        cases err with
        | none => simp [read, hr, readRespond] at hresp
        | some e =>
            refine ⟨value, e, rfl, ?_⟩
            cases hE : errorsIs e .errNoRows with
            | true => exact (errorsIs_iff_mem .errNoRows e).mp hE
            | false =>
                simp [read, hr, readRespond, hE, StatusNotFound, StatusInternalServerError]
                  at hresp

theorem read_absent_key_not_found_witness :
    testWorld.handles[testService.db]? = some { path := "/data/test.db", closed := false } ∧
    service.read floatNever readFine testWorld testService "1.0" =
      .ok ("/data/test.db", none) ∧
    service.read floatNever readFine testWorld testService "2" =
      .ok ("", some (.wrapped "scan err: " .errNoRows)) ∧
    read uniAll floatNever "X" readFine testWorld testService "2" = .ok (.sendStatus 404) ∧
    service.read floatNever readFine closedWorld testService "1" =
      .ok ("", some (.wrapped "prepare err: " (.other "sql: database is closed"))) ∧
    read uniAll floatNever "X" readFine closedWorld testService "1" =
      .ok (.sendStatus 500) :=
  have h := read_absent_key_not_found uniAll floatNever "X" readFine testWorld testService "2"
    { path := "/data/test.db", closed := false }
    { uniqueB := false, rows := [{ b := .int 1, c := .text "/data/test.db" }] }
    rfl rfl rfl ⟨1, by decide, by decide, rfl⟩ (by decide)
  ⟨rfl, rfl, h.1.1, h.1.2.2.2.1, rfl,
    (h.2.1 readFine closedWorld testService "1" ""
      (.wrapped "prepare err: " (.other "sql: database is closed")) rfl (by decide)).2.1⟩

/-! ## The takeover -/

theorem ne_of_getLast (s t : String) (h : s.data.getLast? ≠ t.data.getLast?) : s ≠ t := by
  intro hst
  exact h (by rw [hst])

theorem getFilename_getLast (n : String) : (getFilename n).data.getLast? = some 'b' := by
  have h : (getFilename n).data = ("/data/".data ++ n.data ++ ['.', 'd']) ++ ['b'] := by
    simp [getFilename, String.data_append]
  rw [h, List.getLast?_concat]

theorem shm_getLast (s : String) : (s ++ "-shm").data.getLast? = some 'm' := by
  have h : (s ++ "-shm").data = (s.data ++ ['-', 's', 'h']) ++ ['m'] := by
    simp [String.data_append]
  rw [h, List.getLast?_concat]

theorem wal_getLast (s : String) : (s ++ "-wal").data.getLast? = some 'l' := by
  have h : (s ++ "-wal").data = (s.data ++ ['-', 'w', 'a']) ++ ['l'] := by
    simp [String.data_append]
  rw [h, List.getLast?_concat]

theorem append_right_ne (s t u : String) (h : s ≠ t) : s ++ u ≠ t ++ u := by
  intro heq
  apply h
  have := congrArg String.data heq
  simp [String.data_append] at this
  exact String.ext this

theorem takeover_paths_nodup (cn n : String) (hne : getFilename n ≠ getFilename cn) :
    [getFilename cn, getFilename n, getFilename cn ++ "-shm", getFilename cn ++ "-wal",
      getFilename n ++ "-shm", getFilename n ++ "-wal"].Nodup := by
  have hb := getFilename_getLast
  have hm := shm_getLast
  have hl := wal_getLast
  have h1 : ∀ a b : String, getFilename a ≠ b ++ "-shm" := fun a b =>
    ne_of_getLast _ _ (by rw [hb, hm]; decide)
  have h2 : ∀ a b : String, getFilename a ≠ b ++ "-wal" := fun a b =>
    ne_of_getLast _ _ (by rw [hb, hl]; decide)
  have h3 : ∀ a b : String, a ++ "-shm" ≠ b ++ "-wal" := fun a b =>
    ne_of_getLast _ _ (by rw [hm, hl]; decide)
  have h4 := append_right_ne _ _ "-shm" hne
  have h5 := append_right_ne _ _ "-wal" hne
  simp only [List.nodup_cons, List.mem_cons, List.mem_singleton, not_or, List.not_mem_nil,
    not_false_eq_true, List.nodup_nil, and_true]
  refine ⟨⟨hne.symm, h1 _ _, h2 _ _, h1 _ _, h2 _ _⟩, ⟨h1 _ _, h2 _ _, h1 _ _, h2 _ _⟩,
    ⟨h3 _ _, h4.symm, h3 _ _⟩, ⟨(h3 _ _).symm, h5.symm⟩, h3 _ _⟩

theorem takeover_updated {α : Type} (env : TakeoverEnv) (c f : String) (fs0 : FS α)
    (hnd : [c, f, c ++ "-shm", c ++ "-wal", f ++ "-shm", f ++ "-wal"].Nodup)
    (hall : (takeover env c f fs0).updated = true) :
    (fs0 c).isSome ∧ (fs0 f).isSome ∧
      (takeover env c f fs0).fs c = fs0 f ∧
      (takeover env c f fs0).fs f = none ∧
      (takeover env c f fs0).fs (c ++ "-shm") = fs0 (f ++ "-shm") ∧
      (takeover env c f fs0).fs (c ++ "-wal") = fs0 (f ++ "-wal") ∧
      (takeover env c f fs0).fs (f ++ "-shm") = none ∧
      (takeover env c f fs0).fs (f ++ "-wal") = none ∧
      (∀ p, p ∉ [c, f, c ++ "-shm", c ++ "-wal", f ++ "-shm", f ++ "-wal"] →
        (takeover env c f fs0).fs p = fs0 p) ∧
      (takeover env c f fs0).calls =
        [.remove c, .rename f c, .rename (f ++ "-shm") (c ++ "-shm"),
          .rename (f ++ "-wal") (c ++ "-wal")] := by
  simp only [List.nodup_cons, List.mem_cons, List.mem_singleton, not_or, List.not_mem_nil,
    not_false_eq_true, List.nodup_nil, and_true] at hnd
  obtain ⟨⟨h_cf, h_ccs, h_ccw, h_cfs, h_cfw⟩, ⟨h_fcs, h_fcw, h_ffs, h_ffw⟩,
    ⟨h_cscw, h_csfs, h_csfw⟩, ⟨h_cwfs, h_cwfw⟩, h_fsfw⟩ := hnd
  cases hr : env.removeErr with
  | some e => simp [takeover, osRemove, hr] at hall
  | none =>
  cases hc : fs0 c with
  | none => simp [takeover, osRemove, hr, hc] at hall
  | some x0 =>
  cases hd : env.renameDbErr with
  | some e => simp [takeover, osRemove, osRename, hr, hc, hd] at hall
  | none =>
  cases hf : fs0 f with
  | none => simp [takeover, osRemove, osRename, hr, hc, hd, hf, Ne.symm h_cf] at hall
  | some x1 =>
  cases hs : env.renameShmErr with
  | some e => simp [takeover, osRemove, osRename, hr, hc, hd, hf, Ne.symm h_cf, hs] at hall
  | none =>
  cases hfs : fs0 (f ++ "-shm") with
  | none =>
      simp [takeover, osRemove, osRename, hr, hc, hd, hf, Ne.symm h_cf, hs, hfs,
        Ne.symm h_cfs, Ne.symm h_ffs] at hall
  | some x2 =>
  cases hw : env.renameWalErr with
  | some e =>
      simp [takeover, osRemove, osRename, hr, hc, hd, hf, Ne.symm h_cf, hs, hfs,
        Ne.symm h_cfs, Ne.symm h_ffs, hw] at hall
  | none =>
  cases hfw : fs0 (f ++ "-wal") with
  | none =>
      simp [takeover, osRemove, osRename, hr, hc, hd, hf, Ne.symm h_cf, hs, hfs,
        Ne.symm h_cfs, Ne.symm h_ffs, hw, hfw, Ne.symm h_cfw, Ne.symm h_ffw,
        Ne.symm h_csfw, h_fsfw, Ne.symm h_fsfw] at hall
  | some x3 =>
      have hfin : (takeover env c f fs0).fs = fun p =>
          if p = c ++ "-wal" then some x3 else if p = f ++ "-wal" then none
          else if p = c ++ "-shm" then some x2 else if p = f ++ "-shm" then none
          else if p = c then some x1 else if p = f then none
          else if p = c then none else fs0 p := by
        simp [takeover, osRemove, osRename, hr, hc, hd, hf, Ne.symm h_cf, hs, hfs,
          Ne.symm h_cfs, Ne.symm h_ffs, hw, hfw, Ne.symm h_cfw, Ne.symm h_ffw,
          Ne.symm h_csfw, h_fsfw, Ne.symm h_fsfw]
      have hcalls : (takeover env c f fs0).calls =
          [.remove c, .rename f c, .rename (f ++ "-shm") (c ++ "-shm"),
            .rename (f ++ "-wal") (c ++ "-wal")] := by
        simp [takeover, osRemove, osRename, hr, hc, hd, hf, Ne.symm h_cf, hs, hfs,
          Ne.symm h_cfs, Ne.symm h_ffs, hw, hfw, Ne.symm h_cfw, Ne.symm h_ffw,
          Ne.symm h_csfw, h_fsfw, Ne.symm h_fsfw]
      rw [hfin]
      refine ⟨by simp, by simp, ?_, ?_, ?_, ?_, ?_, ?_, ?_, hcalls⟩
      · simp [h_ccw, h_cfw, h_ccs, h_cfs]
      · simp [h_fcw, h_ffw, h_fcs, h_ffs, Ne.symm h_cf]
      · simp [h_cscw, h_csfw]
      · simp
      · simp [Ne.symm h_cwfs, h_fsfw, Ne.symm h_csfs]
      · simp [Ne.symm h_cwfw]
      · intro p hp
        simp only [List.mem_cons, List.mem_singleton, not_or, List.not_mem_nil,
          not_false_eq_true, and_true] at hp
        obtain ⟨p1, p2, p3, p4, p5, p6⟩ := hp
        simp [p1, p2, p3, p4, p5, p6]


/-- C6. For a canonical path `getFilename cn` and a different candidate path
`getFilename n`: when all four calls of the takeover succeed, the canonical
path names the file the candidate path named before (so a file was there), the
candidate path names nothing, the side files that were at the candidate path
with `-shm` and `-wal` are at the canonical path with `-shm` and `-wal`,
nothing is left at the candidate side paths, and every other path names what
it named before. -/
theorem takeover_promotes_candidate {α : Type} (env : TakeoverEnv) (cn n : String)
    (fs0 : FS α) (hne : getFilename n ≠ getFilename cn)
    (hall : (takeover env (getFilename cn) (getFilename n) fs0).updated = true) :
    (fs0 (getFilename cn)).isSome ∧ (fs0 (getFilename n)).isSome ∧
      (takeover env (getFilename cn) (getFilename n) fs0).fs (getFilename cn) =
        fs0 (getFilename n) ∧
      (takeover env (getFilename cn) (getFilename n) fs0).fs (getFilename n) = none ∧
      (takeover env (getFilename cn) (getFilename n) fs0).fs (getFilename cn ++ "-shm") =
        fs0 (getFilename n ++ "-shm") ∧
      (takeover env (getFilename cn) (getFilename n) fs0).fs (getFilename cn ++ "-wal") =
        fs0 (getFilename n ++ "-wal") ∧
      (takeover env (getFilename cn) (getFilename n) fs0).fs (getFilename n ++ "-shm") = none ∧
      (takeover env (getFilename cn) (getFilename n) fs0).fs (getFilename n ++ "-wal") = none ∧
      (∀ p, p ∉ [getFilename cn, getFilename n, getFilename cn ++ "-shm",
            getFilename cn ++ "-wal", getFilename n ++ "-shm", getFilename n ++ "-wal"] →
        (takeover env (getFilename cn) (getFilename n) fs0).fs p = fs0 p) := by
  have h := takeover_updated env (getFilename cn) (getFilename n) fs0
    (takeover_paths_nodup cn n hne) hall
  exact ⟨h.1, h.2.1, h.2.2.1, h.2.2.2.1, h.2.2.2.2.1, h.2.2.2.2.2.1, h.2.2.2.2.2.2.1,
    h.2.2.2.2.2.2.2.1, h.2.2.2.2.2.2.2.2.1⟩

theorem takeover_promotes_candidate_witness :
    getFilename "new-1" ≠ getFilename "test" ∧
    (takeover takeoverFine (getFilename "test") (getFilename "new-1") swapDir).updated = true ∧
    (takeover takeoverFine (getFilename "test") (getFilename "new-1") swapDir).fs
        (getFilename "test") = swapDir (getFilename "new-1") ∧
    swapDir (getFilename "new-1") = some 1 ∧
    (takeover takeoverFine (getFilename "test") (getFilename "new-1") swapDir).fs
        (getFilename "new-1") = none :=
  have h := takeover_promotes_candidate takeoverFine "test" "new-1" swapDir (by decide) rfl
  ⟨by decide, rfl, h.2.2.1, rfl, h.2.2.2.1⟩

/-- C4, as stated, fails: starting with the canonical file and the candidate
both present, a takeover whose rename of the candidate is refused ends with no
file at the canonical path, and so does the state right after its first call. -/
theorem takeover_failed_rename_loses_canonical :
    swapDir "/data/test.db" = some 0 ∧
    (osRename renameRefused.renameDbErr "/data/new-1.db" "/data/test.db"
        (osRemove renameRefused.removeErr "/data/test.db" swapDir).2).1 =
      some (.other "permission denied") ∧
    (takeover renameRefused "/data/test.db" "/data/new-1.db" swapDir).fs "/data/test.db" =
      none ∧
    (takeover renameRefused "/data/test.db" "/data/new-1.db" swapDir).trace.map
        (fun st => st "/data/test.db") = [none, none] ∧
    (takeover renameRefused "/data/test.db" "/data/new-1.db" swapDir).fs "/data/new-1.db" =
      some 1 :=
  ⟨rfl, rfl, rfl, rfl, rfl⟩


theorem getFilename_ne_shm (a b : String) : getFilename a ≠ b ++ "-shm" :=
  ne_of_getLast _ _ (by rw [getFilename_getLast, shm_getLast]; decide)

theorem getFilename_ne_wal (a b : String) : getFilename a ≠ b ++ "-wal" :=
  ne_of_getLast _ _ (by rw [getFilename_getLast, wal_getLast]; decide)

theorem osRename_other {α : Type} (fault : Option GoErr) (oldpath newpath : String)
    (fs : FS α) (p : String) (hn : p ≠ newpath) (ho : p ≠ oldpath) :
    (osRename fault oldpath newpath fs).2 p = fs p := by
  unfold osRename
  cases fault with
  | some e => rfl
  | none =>
      cases fs oldpath with
      | none => rfl
      | some x => simp [hn, ho]

theorem osRemove_ok {α : Type} (fault : Option GoErr) (name : String) (fs : FS α)
    (h : (osRemove fault name fs).1 = none) :
    (osRemove fault name fs).2 = fun p => if p = name then none else fs p := by
  unfold osRemove at h ⊢
  cases fault with
  | some e => simp at h
  | none =>
      cases hn : fs name with
      | none => simp [hn] at h
      | some x => rfl

theorem osRemove_fail {α : Type} (fault : Option GoErr) (name : String) (fs : FS α)
    (h : (osRemove fault name fs).1 ≠ none) :
    (osRemove fault name fs).2 = fs := by
  unfold osRemove at h ⊢
  cases fault with
  | some e => rfl
  | none =>
      cases hn : fs name with
      | none => rfl
      | some x => simp [hn] at h

theorem osRename_ok {α : Type} (fault : Option GoErr) (oldpath newpath : String) (fs : FS α)
    (h : (osRename fault oldpath newpath fs).1 = none) :
    ∃ x, fs oldpath = some x ∧
      (osRename fault oldpath newpath fs).2 =
        fun p => if p = newpath then some x else if p = oldpath then none else fs p := by
  unfold osRename at h ⊢
  cases fault with
  | some e => simp at h
  | none =>
      cases hn : fs oldpath with
      | none => simp [hn] at h
      | some x => exact ⟨x, rfl, rfl⟩

theorem osRename_fail {α : Type} (fault : Option GoErr) (oldpath newpath : String) (fs : FS α)
    (h : (osRename fault oldpath newpath fs).1 ≠ none) :
    (osRename fault oldpath newpath fs).2 = fs := by
  unfold osRename at h ⊢
  cases fault with
  | some e => rfl
  | none =>
      cases hn : fs oldpath with
      | none => rfl
      | some x => simp [hn] at h

theorem takeover_canonical_general {α : Type} (env : TakeoverEnv) (c f : String) (fs0 : FS α)
    (x : α) (hx : fs0 c = some x)
    (hcs : c ≠ c ++ "-shm") (hcw : c ≠ c ++ "-wal")
    (hfs : c ≠ f ++ "-shm") (hfw : c ≠ f ++ "-wal") :
    ((osRemove env.removeErr c fs0).1 ≠ none →
        ∀ st ∈ (takeover env c f fs0).trace, st c = some x) ∧
    ((osRemove env.removeErr c fs0).1 = none →
        ((takeover env c f fs0).trace.head?).map (fun st => st c) = some none) ∧
    ((osRemove env.removeErr c fs0).1 = none →
        (osRename env.renameDbErr f c (osRemove env.removeErr c fs0).2).1 ≠ none →
        (takeover env c f fs0).fs c = none ∧
          ∀ st ∈ (takeover env c f fs0).trace, st c = none) ∧
    ((osRemove env.removeErr c fs0).1 = none →
        (osRename env.renameDbErr f c (osRemove env.removeErr c fs0).2).1 = none →
        (fs0 f).isSome ∧ (takeover env c f fs0).fs c = fs0 f ∧
          ∀ st ∈ (takeover env c f fs0).trace.drop 1, st c = fs0 f) := by
  refine ⟨?_, ?_, ?_, ?_⟩
  · intro h1 st hst
    have h2 := osRemove_fail _ _ _ h1
    cases h1e : (osRemove env.removeErr c fs0).1 with
    | none => exact absurd h1e h1
    | some e =>
        simp only [takeover, h1e, List.mem_singleton] at hst
        rw [hst, h2, hx]
  · intro h1
    have hc1 : (osRemove env.removeErr c fs0).2 c = none := by
      rw [osRemove_ok _ _ _ h1]; simp
    cases h2 : (osRename env.renameDbErr f c (osRemove env.removeErr c fs0).2).1 <;>
      cases h3 : (osRename env.renameShmErr (f ++ "-shm") (c ++ "-shm")
        (osRename env.renameDbErr f c (osRemove env.removeErr c fs0).2).2).1 <;>
      simp only [takeover, h1, h2, h3, List.head?_cons, Option.map_some', hc1]
  · intro h1 h2
    have hc1 : (osRemove env.removeErr c fs0).2 c = none := by
      rw [osRemove_ok _ _ _ h1]; simp
    have hc2 : (osRename env.renameDbErr f c (osRemove env.removeErr c fs0).2).2 c = none := by
      rw [osRename_fail _ _ _ _ h2, hc1]
    cases h2e : (osRename env.renameDbErr f c (osRemove env.removeErr c fs0).2).1 with
    | none => exact absurd h2e h2
    | some e =>
        simp only [takeover, h1, h2e, List.mem_cons, List.mem_singleton, List.not_mem_nil,
          or_false]
        refine ⟨hc2, ?_⟩
        rintro st (rfl | rfl)
        · exact hc1
        · exact hc2
  · intro h1 h2
    have hc2 : (fs0 f).isSome ∧
        (osRename env.renameDbErr f c (osRemove env.removeErr c fs0).2).2 c = fs0 f := by
      obtain ⟨x1, hx1, hfun⟩ := osRename_ok _ _ _ _ h2
      rw [hfun]
      rw [osRemove_ok _ _ _ h1] at hx1
      by_cases hfc : f = c
      · simp [hfc] at hx1
      · simp [hfc] at hx1
        simp [hx1]
    have hc3 : (osRename env.renameShmErr (f ++ "-shm") (c ++ "-shm")
        (osRename env.renameDbErr f c (osRemove env.removeErr c fs0).2).2).2 c = fs0 f := by
      rw [osRename_other _ _ _ _ c hcs hfs, hc2.2]
    have hc4 : (osRename env.renameWalErr (f ++ "-wal") (c ++ "-wal")
        (osRename env.renameShmErr (f ++ "-shm") (c ++ "-shm")
          (osRename env.renameDbErr f c (osRemove env.removeErr c fs0).2).2).2).2 c =
          fs0 f := by
      rw [osRename_other _ _ _ _ c hcw hfw, hc3]
    refine ⟨hc2.1, ?_⟩
    cases h3 : (osRename env.renameShmErr (f ++ "-shm") (c ++ "-shm")
        (osRename env.renameDbErr f c (osRemove env.removeErr c fs0).2).2).1 with
    | some e =>
        simp only [takeover, h1, h2, h3, List.drop_succ_cons, List.drop_zero,
          List.mem_cons, List.mem_singleton, List.not_mem_nil, or_false]
        refine ⟨hc3, ?_⟩
        rintro st (rfl | rfl)
        · exact hc2.2
        · exact hc3
    | none =>
        simp only [takeover, h1, h2, h3, List.drop_succ_cons, List.drop_zero,
          List.mem_cons, List.mem_singleton, List.not_mem_nil, or_false]
        refine ⟨hc4, ?_⟩
        rintro st (rfl | rfl | rfl)
        · exact hc2.2
        · exact hc3
        · exact hc4


/-- C4, amended. Starting with a file at the canonical path `getFilename cn`:
when `os.Remove` fails, the canonical path names that file after every call of
the takeover; when `os.Remove` succeeds, the canonical path names nothing right
after it; when the rename of the candidate then fails, the canonical path names
nothing after every call and at the end; when that rename succeeds, a file was
at the candidate path and the canonical path names it at the end and after
every call from that rename on, whatever the two renames of the side files
do. -/
theorem takeover_canonical_states {α : Type} (env : TakeoverEnv) (cn n : String)
    (fs0 : FS α) (x : α) (hx : fs0 (getFilename cn) = some x) :
    ((osRemove env.removeErr (getFilename cn) fs0).1 ≠ none →
        ∀ st ∈ (takeover env (getFilename cn) (getFilename n) fs0).trace,
          st (getFilename cn) = some x) ∧
    ((osRemove env.removeErr (getFilename cn) fs0).1 = none →
        ((takeover env (getFilename cn) (getFilename n) fs0).trace.head?).map
          (fun st => st (getFilename cn)) = some none) ∧
    ((osRemove env.removeErr (getFilename cn) fs0).1 = none →
        (osRename env.renameDbErr (getFilename n) (getFilename cn)
          (osRemove env.removeErr (getFilename cn) fs0).2).1 ≠ none →
        (takeover env (getFilename cn) (getFilename n) fs0).fs (getFilename cn) = none ∧
          ∀ st ∈ (takeover env (getFilename cn) (getFilename n) fs0).trace,
            st (getFilename cn) = none) ∧
    ((osRemove env.removeErr (getFilename cn) fs0).1 = none →
        (osRename env.renameDbErr (getFilename n) (getFilename cn)
          (osRemove env.removeErr (getFilename cn) fs0).2).1 = none →
        (fs0 (getFilename n)).isSome ∧
          (takeover env (getFilename cn) (getFilename n) fs0).fs (getFilename cn) =
            fs0 (getFilename n) ∧
          ∀ st ∈ (takeover env (getFilename cn) (getFilename n) fs0).trace.drop 1,
            st (getFilename cn) = fs0 (getFilename n)) :=
  takeover_canonical_general env (getFilename cn) (getFilename n) fs0 x hx
    (getFilename_ne_shm cn _) (getFilename_ne_wal cn _)
    (getFilename_ne_shm cn _) (getFilename_ne_wal cn _)

theorem takeover_canonical_states_witness :
    swapDir (getFilename "test") = some 0 ∧
    (takeover renameRefused (getFilename "test") (getFilename "new-1") swapDir).fs
        (getFilename "test") = none ∧
    (takeover takeoverFine (getFilename "test") (getFilename "new-1") swapDir).fs
        (getFilename "test") = swapDir (getFilename "new-1") :=
  ⟨rfl,
    ((takeover_canonical_states renameRefused "test" "new-1" swapDir 0 rfl).2.2.1 rfl
      (by decide)).1,
    ((takeover_canonical_states takeoverFine "test" "new-1" swapDir 0 rfl).2.2.2 rfl rfl).2.1⟩

/-! ## Readers beside `update` -/

/-- C10, as stated, fails: `read` and `update` share no lock. In the schedule
where a reader calls `Prepare` after `update` has called `Close` and before it
has stored the new handle, that `Prepare` is made on the closed handle; a whole
`service.read` at that moment fails all 100 calls of `Prepare` and the handler
answers 500. In the schedule where a whole `update` falls between the `Prepare`
and the query of a reader, the query is made on the closed handle. -/
theorem read_between_close_and_store_uses_closed :
    serialized racingSchedule = false ∧
    (sysRun uniAll testSys racingSchedule).map (fun s => s.uses) = some [(0, true)] ∧
    (sysRun uniAll testSys racingSchedule).map useAfterClose = some true ∧
    (sysStep uniAll testSys (.updateClose "/data/new-1.db" none)).map
        (fun s => s.w.handles) = some closedWorld.handles ∧
    (∀ floatEq : Int → String → Bool,
      service.read floatEq readFine closedWorld testService "1" =
        .ok ("", some (.wrapped "prepare err: " (.other "sql: database is closed"))) ∧
      read uniAll floatEq "X" readFine closedWorld testService "1" =
        .ok (.sendStatus StatusInternalServerError)) ∧
    serialized racingQuerySchedule = false ∧
    (sysRun uniAll testSys racingQuerySchedule).map (fun s => s.uses) =
      some [(0, false), (0, true)] ∧
    (sysRun uniAll testSys racingQuerySchedule).map useAfterClose = some true :=
  ⟨rfl, rfl, rfl, rfl, fun _ => ⟨rfl, rfl⟩, rfl, rfl, rfl⟩

theorem useAfterClose_append (sys : Sys) (stmts : List (Nat × Stmt)) (u : Nat × Bool)
    (h : useAfterClose sys = false) (hu : u.2 = false) :
    useAfterClose { sys with stmts := stmts, uses := sys.uses ++ [u] } = false := by
  simp only [useAfterClose, List.any_append, List.any_cons, List.any_nil, Bool.or_false] at h ⊢
  rw [h, hu]
  rfl

theorem serialized_invariant (uni : Char → Bool) :
    ∀ (sched : List Step) (sys sys2 : Sys),
      serialized sched = true →
      sys.pending = none →
      sys.stmts = [] →
      (∃ h, sys.w.handles[sys.svc.db]? = some h ∧ h.closed = false) →
      useAfterClose sys = false →
      sysRun uni sys sched = some sys2 →
      useAfterClose sys2 = false ∧ sys2.pending = none ∧ sys2.stmts = [] ∧
        ∃ h, sys2.w.handles[sys2.svc.db]? = some h ∧ h.closed = false := by
  intro sched
  induction sched using serialized.induct with
  | case1 =>
      intro sys sys2 _ hp hs hl hu hrun
      simp only [sysRun, Option.some.injEq] at hrun
      subst hrun
      exact ⟨hu, hp, hs, hl⟩
  | case2 rid e rest ih =>
      intro sys sys2 hser hp hs hl hu hrun
      obtain ⟨h, hh, hc⟩ := hl
      simp only [serialized] at hser
      simp only [sysRun, sysStep, hs, List.lookup, hh, Option.isNone_some, Bool.and_false,
        Bool.false_eq_true, if_false] at hrun
      exact ih { sys with stmts := [], uses := sys.uses ++ [(sys.svc.db, h.closed)] } sys2 hser
        hp rfl ⟨h, hh, hc⟩ (useAfterClose_append sys [] (sys.svc.db, h.closed) hu hc) hrun
  | case3 rid rid2 rid3 rest ih =>
      intro sys sys2 hser hp hs hl hu hrun
      obtain ⟨h, hh, hc⟩ := hl
      simp only [serialized, Bool.and_eq_true, decide_eq_true_eq] at hser
      obtain ⟨⟨h2, h3⟩, hser⟩ := hser
      subst h2 h3
      simp [sysRun, sysStep, hs, List.lookup, hh, hc] at hrun
      refine ih ⟨sys.svc, sys.w, sys.pending, [],
        sys.uses ++ [(sys.svc.db, false), (sys.svc.db, false), (sys.svc.db, false)]⟩ sys2
        hser hp rfl ⟨h, hh, hc⟩ ?_ ?_
      · simp only [useAfterClose, List.any_append, List.any_cons, List.any_nil,
          Bool.or_false] at hu ⊢
        rw [hu]
      · simpa using hrun
  | case4 filename closeErr env rest ih =>
      intro sys sys2 hser hp hs hl hu hrun
      obtain ⟨h, hh, hc⟩ := hl
      simp only [serialized] at hser
      cases hce : closeErr with
      | some e => simp [sysRun, sysStep, hh, hp, dbClose, hc, hce] at hrun
      | none =>
          cases hg : getDB uni env
              { sys.w with handles := sys.w.handles.set sys.svc.db { h with closed := true } }
              filename with
          | panic v => simp [sysRun, sysStep, hh, hp, dbClose, hc, hce, hg] at hrun
          | ok r =>
              obtain ⟨db, w2⟩ := r
              simp [sysRun, sysStep, hh, hp, dbClose, hc, hce, hg] at hrun
              obtain ⟨hdb, hhs, _⟩ := getDB_ok uni env _ filename db w2 hg
              refine ih ⟨⟨sys.svc.filename, db⟩, w2, none, sys.stmts, sys.uses⟩ sys2 hser rfl hs
                ⟨{ path := dbFile filename, closed := false }, ?_, rfl⟩ hu hrun
              simp only [List.length_set] at hdb
              simp [hhs, hdb]
  | case5 sched hne1 hne2 hne3 hne4 =>
      intro sys sys2 hser
      exfalso
      unfold serialized at hser
      split at hser
      · exact hne1 rfl
      · exact hne2 _ _ _ rfl
      · exact hne3 _ _ _ _ rfl
      · exact hne4 _ _ _ _ rfl
      · cases hser

/-- C10, amended. The code has no mutual exclusion between `read` and `update`.
From a state with no update under way, no statement outstanding and an open
live handle: in every schedule made of whole reads and whole updates (no step
of another goroutine between a reader's successful `Prepare` and its
`stmt.Close`, nor between the `Close` of an `update` and its store of the new
handle), no reader uses a closed handle; whenever a reader's `Prepare` falls
right after that `Close`, it is made on the closed handle; and whenever the
`Close` of an `update` falls between a reader's successful `Prepare` and its
query, the query is made on the closed handle. -/
theorem serialized_no_use_after_close (uni : Char → Bool) (sys : Sys)
    (hp : sys.pending = none) (hs : sys.stmts = [])
    (hl : ∃ h, sys.w.handles[sys.svc.db]? = some h ∧ h.closed = false)
    (hu : useAfterClose sys = false) :
    (∀ (sched : List Step) (sys2 : Sys), serialized sched = true →
        sysRun uni sys sched = some sys2 → useAfterClose sys2 = false) ∧
    (∀ (filename : String) (rid : Nat) (e : Option GoErr),
        ∃ sys3, sysRun uni sys [.updateClose filename none, .readPrepare rid e] = some sys3 ∧
          useAfterClose sys3 = true) ∧
    (∀ (filename : String) (rid : Nat),
        ∃ sys3, sysRun uni sys
            [.readPrepare rid none, .updateClose filename none, .readQuery rid] = some sys3 ∧
          useAfterClose sys3 = true) := by
  refine ⟨?_, ?_, ?_⟩
  · intro sched sys2 hser hrun
    exact (serialized_invariant uni sched sys sys2 hser hp hs hl hu hrun).1
  · intro filename rid e
    obtain ⟨h, hh, hc⟩ := hl
    have hlt : sys.svc.db < sys.w.handles.length := by
      by_contra hge
      rw [List.getElem?_eq_none (by omega)] at hh
      cases hh
    refine ⟨⟨sys.svc,
      ⟨sys.w.files, sys.w.handles.set sys.svc.db { path := h.path, closed := true }⟩,
      some filename, [], sys.uses ++ [(sys.svc.db, true)]⟩, ?_, ?_⟩
    · simp [sysRun, sysStep, hp, hs, hh, dbClose, hc, List.getElem?_set, hlt, List.lookup]
    · simp [useAfterClose]
  · intro filename rid
    obtain ⟨h, hh, hc⟩ := hl
    have hlt : sys.svc.db < sys.w.handles.length := by
      by_contra hge
      rw [List.getElem?_eq_none (by omega)] at hh
      cases hh
    refine ⟨⟨sys.svc,
      ⟨sys.w.files, sys.w.handles.set sys.svc.db { path := h.path, closed := true }⟩,
      some filename, [(rid, { db := sys.svc.db, queried := true })],
      sys.uses ++ [(sys.svc.db, false), (sys.svc.db, true)]⟩, ?_, ?_⟩
    · simp [sysRun, sysStep, hp, hs, hh, dbClose, hc, List.getElem?_set, hlt, List.lookup]
    · simp [useAfterClose]

theorem serialized_no_use_after_close_witness :
    serialized lockedSchedule = true ∧
    sysRun uniAll testSys lockedSchedule = some swappedSys ∧
    useAfterClose swappedSys = false :=
  ⟨rfl, rfl,
    (serialized_no_use_after_close uniAll testSys rfl rfl
      ⟨{ path := "/data/test.db", closed := false }, rfl, rfl⟩ rfl).1
      lockedSchedule swappedSys rfl rfl⟩

/-! ## The seed value on paths that `%q` leaves unchanged -/

theorem quoteBody_plain (uni : Char → Bool) :
    ∀ cs : List Char, (∀ c ∈ cs, isPrint uni c = true ∧ c ≠ dquote ∧ c ≠ bslash) →
      quoteBody uni cs = cs := by
  intro cs
  induction cs with
  | nil => intro _; rfl
  | cons c rest ih =>
      intro h
      obtain ⟨hp, hq, hb⟩ := h c (List.mem_cons_self c rest)
      have hrest := ih (fun d hd => h d (List.mem_cons_of_mem c hd))
      simp [quoteBody, appendEscapedRune, hp, hq, hb, hrest]

theorem sqliteQuotedToken_plain :
    ∀ (cs tail : List Char), (∀ c ∈ cs, c ≠ dquote) → tail.head? ≠ some dquote → tail ≠ [] →
      sqliteQuotedToken (cs ++ dquote :: tail) = some (cs, tail) := by
  intro cs
  induction cs with
  | nil =>
      intro tail _ htail hne
      cases tail with
      | nil => exact absurd rfl hne
      | cons d rest =>
          have hd : d ≠ dquote := fun hEq => htail (by simp [hEq])
          simp [sqliteQuotedToken, hd]
  | cons c rest ih =>
      intro tail h htail hne
      have hc : c ≠ dquote := h c (List.mem_cons_self c rest)
      have hrest := ih tail (fun d hd => h d (List.mem_cons_of_mem c hd)) htail hne
      rw [List.cons_append]
      unfold sqliteQuotedToken
      simp [hc, hrest]

theorem seedLiteral_plain (uni : Char → Bool) (s : String)
    (h : ∀ c ∈ s.data, isPrint uni c = true ∧ c ≠ dquote ∧ c ≠ bslash) :
    seedLiteral (goQuote uni s) = some s := by
  have hq := quoteBody_plain uni s.data h
  have ht := sqliteQuotedToken_plain s.data [')'] (fun c hc => (h c hc).2.1) (by decide)
    (by decide)
  simp [seedLiteral, goQuote, hq, ht]

/-- For a path made only of runes that `strconv.IsPrint` accepts, none of them
a double quote or a backslash: after `getDB` on a path with no file, a
`service.read("1")` whose `Prepare` succeeds within the budget returns the path
itself and a `nil` error. -/
theorem seed_value_plain_path (uni : Char → Bool) (floatEq : Int → String → Bool)
    (env : OpenEnv) (renv : ReadEnv) (w : World) (p : String)
    (hplain : ∀ c ∈ p.data, isPrint uni c = true ∧ c ≠ dquote ∧ c ≠ bslash)
    (hfresh : w.files (dbFile p) = none) (db : Nat) (w2 : World)
    (hg : getDB uni env w p = .ok (db, w2))
    (hprep : ∃ k, 1 ≤ k ∧ k ≤ 100 ∧ renv.prepareErr k = none) :
    service.read floatEq renv w2 { filename := p, db := db } "1" = .ok (p, none) := by
  obtain ⟨hdb, hhs, d, hd, hfiles⟩ := getDB_ok uni env w p db w2 hg
  have hseed : d = { a := some { uniqueB := false, rows := [{ b := .int 1, c := .text p }] } } := by
    simp [execSeed, seedLiteral_plain uni p hplain, hfresh, execCreateTable,
      execInsertOrIgnore] at hd
    exact hd.symm
  have hh : w2.handles[db]? = some { path := dbFile p, closed := false } := by
    simp [hhs, hdb]
  have ht : (w2.files (dbFile p)).bind (fun d => d.a) =
      some { uniqueB := false, rows := [{ b := .int 1, c := .text p }] } := by
    simp [hfiles, hseed]
  have hloop : prepareLoop
      (fun k => dbPrepare (renv.prepareErr k) w2 { path := dbFile p, closed := false }) 100 0
      (none, none) =
      (none, some { uniqueB := false, rows := [{ b := .int 1, c := .text p }] }) := by
    apply prepareLoop_success _
      { uniqueB := false, rows := [{ b := .int 1, c := .text p }] }
    · intro k t2 hk
      simp only [dbPrepare, ht] at hk
      cases hpe : renv.prepareErr k with
      | some e => simp [hpe] at hk
      | none =>
          simp [hpe] at hk
          exact hk.symm
    · obtain ⟨k, h1, h2, hk⟩ := hprep
      exact ⟨k, by omega, by omega,
        { uniqueB := false, rows := [{ b := .int 1, c := .text p }] },
        by simp [dbPrepare, ht, hk]⟩
  have hm : rowMatches floatEq "1" { b := .int 1, c := .text p } = true := rfl
  simp [service.read, hh, hloop, queryRowScan, List.find?, hm, scanString]


/-- On any path with no file, whenever two successive calls of `getDB` both
return, the first leaves one seed row and the second leaves two rows with the
same key and the same value. -/
theorem getDB_twice_any_path (uni : Char → Bool) (env1 env2 : OpenEnv) (w : World)
    (p : String) (hfresh : w.files (dbFile p) = none) (db1 db2 : Nat) (w1 w2 : World)
    (h1 : getDB uni env1 w p = .ok (db1, w1))
    (h2 : getDB uni env2 w1 p = .ok (db2, w2)) :
    ∃ v, w1.files (dbFile p) =
        some { a := some { uniqueB := false, rows := [{ b := .int 1, c := .text v }] } } ∧
      w2.files (dbFile p) =
        some { a := some { uniqueB := false,
                           rows := [{ b := .int 1, c := .text v },
                                    { b := .int 1, c := .text v }] } } := by
  obtain ⟨_, _, d1, hd1, hf1⟩ := getDB_ok uni env1 w p db1 w1 h1
  obtain ⟨_, _, d2, hd2, hf2⟩ := getDB_ok uni env2 w1 p db2 w2 h2
  cases hlit : seedLiteral (goQuote uni p) with
  | none => simp [execSeed, hlit] at hd1
  | some v =>
      have e1 : d1 =
          { a := some { uniqueB := false, rows := [{ b := .int 1, c := .text v }] } } := by
        simp [execSeed, hlit, hfresh, execCreateTable, execInsertOrIgnore] at hd1
        exact hd1.symm
      have hw1 : w1.files (dbFile p) = some d1 := by simp [hf1]
      have e2 : d2 =
          { a := some { uniqueB := false,
                        rows := [{ b := .int 1, c := .text v },
                                 { b := .int 1, c := .text v }] } } := by
        simp [execSeed, hlit, hw1, e1, execCreateTable, execInsertOrIgnore] at hd2
        exact hd2.symm
      exact ⟨v, by rw [hw1, e1], by simp [hf2, e2]⟩

end SqliteReplace
